import Mathlib

/-!
Verification of the Grocery Stock Management System (CSC201 Task 1).

Shallow embedding of `src/grocery/simulator.py` (class `GrocerySimulator`)
and `src/grocery/models.py`.  Python floats are modelled as rationals
(exact field arithmetic; the special values infinity and NaN are outside
this model), Python ints as integers, and the three `defaultdict` ledgers
as association lists so that the key-insertion side effect of reading a
missing key is modelled faithfully.  `process_line` returns the list of
lines it would print.
-/

set_option maxRecDepth 10000

namespace Grocery

/-! ## Association lists modelling Python dict / defaultdict -/

/-- Look up the value stored under key `k` (first binding wins). -/
def lookupA {α β : Type} [DecidableEq α] : List (α × β) → α → Option β
  | [], _ => none
  | kv :: rest, k => if kv.1 = k then some kv.2 else lookupA rest k

/-- Update the binding of `k` in place, or append `(k, f dflt)` if absent.
With `f = id` this is exactly the key-inserting read `d[k]` of a Python
`defaultdict`; with other `f` it is a read-modify-write of `d[k]`. -/
def upsertA {α β : Type} [DecidableEq α] (d : List (α × β)) (k : α) (dflt : β) (f : β → β) :
    List (α × β) :=
  match d with
  | [] => [(k, f dflt)]
  | kv :: rest => if kv.1 = k then (kv.1, f kv.2) :: rest else kv :: upsertA rest k dflt f

/-- Key-inserting access `d[k]` of a `defaultdict` (value part is `dGet`). -/
def touchA {α β : Type} [DecidableEq α] (d : List (α × β)) (k : α) (dflt : β) :
    List (α × β) :=
  upsertA d k dflt (fun v => v)

/-- The value `d[k]` would yield (default when the key is absent). -/
def dGet {α β : Type} [DecidableEq α] (d : List (α × β)) (k : α) (dflt : β) : β :=
  (lookupA d k).getD dflt

/-! ## Tokenisation: strip / startswith / split of the source -/

/-- Whitespace characters recognised by Python `str.strip` / `str.split`
(ASCII range; exotic Unicode spaces are outside this model). -/
def isWs (c : Char) : Bool :=
  c = ' ' || c = '\t' || c = '\n' || c = '\r' || c = '\x0b' || c = '\x0c'

/-- Python `str.strip()` on a character list. -/
def trimChars (l : List Char) : List Char :=
  ((l.dropWhile isWs).reverse.dropWhile isWs).reverse

/-- Worker for `tokens`: split a character list on whitespace runs,
accumulating the current word in reverse. -/
def wordsRec (acc : List Char) : List Char → List String
  | [] => if acc = [] then [] else [⟨acc.reverse⟩]
  | c :: rest =>
    if isWs c then
      if acc = [] then wordsRec [] rest else (⟨acc.reverse⟩ : String) :: wordsRec [] rest
  else wordsRec (c :: acc) rest

/-- Python `line.split()`. -/
def tokens (l : List Char) : List String := wordsRec [] l

/-! ## Kernel-evaluable rational arithmetic

The library operations on `ℚ` are irreducible, so concrete runs of the
simulator could not be evaluated inside proofs through them.  The
embedding therefore uses the following operations, each provably equal
to the corresponding field operation of `ℚ` (see `radd_eq` etc. below),
so the arithmetic semantics is exactly that of exact rationals. -/

/-- Addition on `ℚ`, evaluable form. -/
def radd (a b : ℚ) : ℚ := mkRat (a.num * b.den + b.num * a.den) (a.den * b.den)

/-- Subtraction on `ℚ`, evaluable form. -/
def rsub (a b : ℚ) : ℚ := mkRat (a.num * b.den - b.num * a.den) (a.den * b.den)

/-- Multiplication on `ℚ`, evaluable form. -/
def rmul (a b : ℚ) : ℚ := mkRat (a.num * b.num) (a.den * b.den)

/-- Division on `ℚ`, evaluable form. -/
def rdiv (a b : ℚ) : ℚ := rmul a (Rat.divInt b.den b.num)

theorem radd_eq (a b : ℚ) : radd a b = a + b := (Rat.add_def' a b).symm

theorem rsub_eq (a b : ℚ) : rsub a b = a - b := (Rat.sub_def' a b).symm

theorem rmul_eq (a b : ℚ) : rmul a b = a * b := by
  rw [Rat.mul_def, Rat.normalize_eq_mkRat]; rfl

theorem rdiv_eq (a b : ℚ) : rdiv a b = a / b := by
  rw [rdiv, rmul_eq, ← Rat.inv_def', div_eq_mul_inv]

/-! ## Numeric parsing and formatting -/

/-- Numeric value of a digit string. -/
def digitsVal (l : List Char) : ℕ := l.foldl (fun a c => a * 10 + (c.toNat - 48)) 0

/-- Model of Python `float(token)` on a whitespace-free token: optional
sign, decimal digits with an optional fractional part, optional decimal
exponent.  Returns the exact rational value, or `none` when the token
does not parse (Python would raise `ValueError`).  The special values
`inf` and `nan` have no rational counterpart and are outside the model. -/
def pf (l : List Char) : Option ℚ :=
  let sgnRest : Bool × List Char :=
    match l with
    | '+' :: r => (false, r)
    | '-' :: r => (true, r)
    | _ => (false, l)
  let sgn := sgnRest.1
  let l1 := sgnRest.2
  let ip := l1.takeWhile Char.isDigit
  let r1 := l1.dropWhile Char.isDigit
  let fpRest : List Char × List Char :=
    match r1 with
    | '.' :: r => (r.takeWhile Char.isDigit, r.dropWhile Char.isDigit)
    | _ => ([], r1)
  let fp := fpRest.1
  let r2 := fpRest.2
  if ip = [] ∧ fp = [] then none
  else
    let numer : ℕ := digitsVal ip * 10 ^ fp.length + digitsVal fp
    let denom : ℕ := 10 ^ fp.length
    let signed : ℚ → ℚ := fun v => if sgn then -v else v
    match r2 with
    | [] => some (signed (mkRat numer denom))
    | 'e' :: r3 | 'E' :: r3 =>
      let esRest : Bool × List Char :=
        match r3 with
        | '+' :: r4 => (false, r4)
        | '-' :: r4 => (true, r4)
        | _ => (false, r3)
      let ed := esRest.2.takeWhile Char.isDigit
      let r5 := esRest.2.dropWhile Char.isDigit
      if ed = [] ∨ r5 ≠ [] then none
      else
        let e := digitsVal ed
        some (signed (if esRest.1 then mkRat numer (denom * 10 ^ e)
          else mkRat (numer * 10 ^ e) denom))
    | _ => none

/-- Model of Python `float(str)` on a token. -/
def pFloat (s : String) : Option ℚ := pf s.data

/-- Model of Python `int(x)` on a (finite) float value: truncation toward
zero of the rational. -/
def qtrunc (q : ℚ) : ℤ :=
  if q.num < 0 then -(((-q.num).toNat / q.den : ℕ) : ℤ) else ((q.num.toNat / q.den : ℕ) : ℤ)

/-- Floor of a rational as an integer (denominators are positive, so
Euclidean division of the numerator is the floor). -/
def floorQ (q : ℚ) : ℤ := Int.ediv q.num (q.den : ℤ)

/-- Round to the nearest integer, ties to even: the rounding used by
Python float formatting. -/
def roundHE (q : ℚ) : ℤ :=
  let f := floorQ q
  let r := rsub q (f : ℚ)
  if r < mkRat 1 2 then f
  else if mkRat 1 2 < r then f + 1
  else if f % 2 = 0 then f else f + 1

/-- Model of the Python format specifier for two decimal places applied
to the profit value (sign, integer part, dot, two-digit cents). -/
def fmt2 (q : ℚ) : String :=
  let n := roundHE (rmul q 100)
  let m := n.natAbs
  (if q < 0 then "-" else "") ++ toString (m / 100) ++ "." ++
    (if m % 100 < 10 then "0" else "") ++ toString (m % 100)

/-! ## Sorting of item names (Python `sorted` on strings) -/

/-- Lexicographic comparison of character lists by code point, the order
Python uses to sort strings. -/
def charsLt : List Char → List Char → Bool
  | [], [] => false
  | [], _ :: _ => true
  | _ :: _, [] => false
  | a :: as, b :: bs => if a < b then true else if b < a then false else charsLt as bs

/-- String comparison by code points. -/
def strLtB (a b : String) : Bool := charsLt a.data b.data

/-- Insert a string into an ascending list. -/
def insertSorted (x : String) : List String → List String
  | [] => [x]
  | y :: ys => if strLtB x y then x :: y :: ys else y :: insertSorted x ys

/-- Ascending insertion sort, modelling Python `sorted` on item names. -/
def sortKeys (l : List String) : List String := l.foldr insertSorted []

/-! ## Data model (`models.py`) -/

/-- One purchase lot (`Batch(qty, cost)` in `models.py`). -/
structure Batch where
  qty : ℤ
  cost : ℚ
deriving DecidableEq

/-- One FIFO slice of a sale (`SaleComponent` in `models.py`). -/
structure SaleComponent where
  qty : ℤ
  unit_cost : ℚ
  unit_sell_after_discount : ℚ
deriving DecidableEq

/-- One ORDER execution (`SaleLot` in `models.py`). -/
structure SaleLot where
  sell_price_after_discount : ℚ
  total_qty : ℤ
  components : List SaleComponent
deriving DecidableEq

/-- Price-indexed sale lots of one item (inner `defaultdict(list)`). -/
abbrev PriceMap := List (ℚ × List SaleLot)

/-- State of the simulator (`GrocerySimulator.__init__`). -/
structure GrocerySimulator where
  inventory : List (String × List Batch)
  discounts : List (String × List ℚ)
  sales : List (String × PriceMap)
  profit : ℚ
  invalid : Bool
deriving DecidableEq

/-- Fresh engine state (`__init__`). -/
def initSim : GrocerySimulator := ⟨[], [], [], 0, false⟩

/-- Set the poison flag (`self.invalid = True`). -/
def setInv (s : GrocerySimulator) : GrocerySimulator := { s with invalid := true }

/-- Total of the batch quantities of one item (`_total_available`). -/
def sumQty (bs : List Batch) : ℤ := (bs.map Batch.qty).sum

/-- Sum of the component quantities of a sale lot. -/
def compSum (cs : List SaleComponent) : ℤ := (cs.map SaleComponent.qty).sum

/-- Units available to return at one price: sum of the non-negative lot
remainders (RETURN branch, lines 196-199). -/
def retAvail (lots : List SaleLot) : ℤ := (lots.map (fun lot => max 0 lot.total_qty)).sum

/-- Method `_active_discount` (lines 32-36): top of the stack, else 0. -/
def active_discount (s : GrocerySimulator) (item : String) : ℚ :=
  (dGet s.discounts item []).getLast?.getD 0

/-- Method `_total_available` (lines 38-40), as the value the read
yields; the key-inserting side effect is handled at each call site. -/
def total_available (s : GrocerySimulator) (item : String) : ℤ :=
  sumQty (dGet s.inventory item [])

/-- Discounted unit sell price of an ORDER (line 112). -/
def sell_after (s : GrocerySimulator) (item : String) (sell : ℚ) : ℚ :=
  rmul sell (rsub 1 (rdiv (active_discount s item) 100))

/-! ## The consumption loops of `process_line` -/

/-- The ORDER consumption loop (lines 114-133): take from the front
batch, record a component and the profit contribution of the slice, pop
the batch when it reaches zero.  When the front batch keeps a positive
remainder the taken amount equals the whole request, so the loop
condition fails on the next test and the loop stops, which is the
non-recursive branch below. -/
def orderLoop (sd : ℚ) (r : ℤ) : List Batch → List Batch × List SaleComponent × ℚ
  | [] => ([], [], 0)
  | b :: rest =>
    if r ≤ 0 then (b :: rest, [], 0)
    else
      let take := min r b.qty
      if b.qty - take = 0 then
        let res := orderLoop sd (r - take) rest
        (res.1, ⟨take, b.cost, sd⟩ :: res.2.1,
          radd (rmul (take : ℚ) (rsub sd b.cost)) res.2.2)
      else (⟨b.qty - take, b.cost⟩ :: rest, [⟨take, b.cost, sd⟩],
        rmul (take : ℚ) (rsub sd b.cost))

/-- The EXPIRE consumption loop (lines 160-172): same batch traversal,
accumulating the written-off cost. -/
def expireLoop (r : ℤ) : List Batch → List Batch × ℚ
  | [] => ([], 0)
  | b :: rest =>
    if r ≤ 0 then (b :: rest, 0)
    else
      let take := min r b.qty
      if b.qty - take = 0 then
        let res := expireLoop (r - take) rest
        (res.1, radd (rmul (take : ℚ) b.cost) res.2)
      else (⟨b.qty - take, b.cost⟩ :: rest, rmul (take : ℚ) b.cost)

/-- The inner RETURN loop over one lot (lines 220-236): components are
consumed front first; non-positive components are popped and skipped;
the accumulated value is the amount subtracted from the profit. -/
def returnCompLoop (r : ℤ) : List SaleComponent → List SaleComponent × ℚ
  | [] => ([], 0)
  | c :: rest =>
    if r ≤ 0 then (c :: rest, 0)
    else if c.qty ≤ 0 then returnCompLoop r rest
    else
      let take := min r c.qty
      if c.qty - take = 0 then
        let res := returnCompLoop (r - take) rest
        (res.1, radd (rmul (take : ℚ) (rsub c.unit_sell_after_discount c.unit_cost)) res.2)
      else
        (⟨c.qty - take, c.unit_cost, c.unit_sell_after_discount⟩ :: rest,
          rmul (take : ℚ) (rsub c.unit_sell_after_discount c.unit_cost))

/-- The outer RETURN loop (lines 205-240) applied to the lot list in
traversal order, which is the reverse of the stored list: breaks when
the request is filled, skips exhausted lots, otherwise consumes up to
the lot remainder through `returnCompLoop` and shrinks `total_qty`. -/
def returnLotsLoop (r : ℤ) : List SaleLot → List SaleLot × ℚ
  | [] => ([], 0)
  | lot :: rest =>
    if r ≤ 0 then (lot :: rest, 0)
    else if lot.total_qty ≤ 0 then
      let res := returnLotsLoop r rest
      (lot :: res.1, res.2)
    else
      let lq := min r lot.total_qty
      let inner := returnCompLoop lq lot.components
      let res := returnLotsLoop (r - lq) rest
      (⟨lot.sell_price_after_discount, lot.total_qty - lq, inner.1⟩ :: res.1,
        radd inner.2 res.2)

/-! ## Command branches of `process_line` -/

/-- STOCK branch (lines 71-86). -/
def doSTOCK (s : GrocerySimulator) (item qs cs : String) : GrocerySimulator :=
  match pFloat qs, pFloat cs with
  | some qf, some cost =>
    let qty := qtrunc qf
    if qty < 0 ∨ cost ≤ 0 then setInv s
    else if qty > 0 then
      { s with inventory := upsertA s.inventory item [] (fun bs => bs ++ [⟨qty, cost⟩]) }
    else s
  | _, _ => setInv s

/-- ORDER branch (lines 88-137).  Reading `self.inventory[item]` and
`self.discounts[item]` inserts those keys (defaultdict), also on the
oversell failure path. -/
def doORDER (s : GrocerySimulator) (item qs ss : String) : GrocerySimulator :=
  match pFloat qs, pFloat ss with
  | some qf, some sell =>
    let qty := qtrunc qf
    if qty < 0 ∨ sell < 0 then setInv s
    else if qty = 0 then s
    else
      let inv1 := touchA s.inventory item []
      if total_available s item < qty then setInv { s with inventory := inv1 }
      else
        let disc1 := touchA s.discounts item []
        let sell_after_discount := sell_after s item sell
        let res := orderLoop sell_after_discount qty (dGet s.inventory item [])
        let sale_lot : SaleLot := ⟨sell_after_discount, qty, res.2.1⟩
        { s with
          inventory := upsertA inv1 item [] (fun _ => res.1)
          discounts := disc1
          sales := upsertA s.sales item []
            (fun pm => upsertA pm sell [] (fun lots => lots ++ [sale_lot]))
          profit := radd s.profit res.2.2 }
  | _, _ => setInv s

/-- EXPIRE branch (lines 139-172). -/
def doEXPIRE (s : GrocerySimulator) (item qs : String) : GrocerySimulator :=
  match pFloat qs with
  | some qf =>
    let qty := qtrunc qf
    if qty < 0 then setInv s
    else if qty = 0 then s
    else
      let inv1 := touchA s.inventory item []
      if total_available s item < qty then setInv { s with inventory := inv1 }
      else
        let res := expireLoop qty (dGet s.inventory item [])
        { s with
          inventory := upsertA inv1 item [] (fun _ => res.1)
          profit := rsub s.profit res.2 }
  | none => setInv s

/-- RETURN branch (lines 174-240).  Membership tests do not insert keys;
the stored lot list is rewritten in place, so the traversal result is
reversed back. -/
def doRETURN (s : GrocerySimulator) (item qs ss : String) : GrocerySimulator :=
  match pFloat qs, pFloat ss with
  | some qf, some sell =>
    let qty := qtrunc qf
    if qty < 0 then setInv s
    else if qty = 0 then s
    else
      match lookupA s.sales item with
      | none => setInv s
      | some pm =>
        match lookupA pm sell with
        | none => setInv s
        | some lots =>
          if retAvail lots < qty then setInv s
          else
            let res := returnLotsLoop qty lots.reverse
            { s with
              sales := upsertA s.sales item []
                (fun pmv => upsertA pmv sell [] (fun _ => res.1.reverse))
              profit := rsub s.profit res.2 }
  | _, _ => setInv s

/-- DISCOUNT branch (lines 242-249): push unconditionally. -/
def doDISCOUNT (s : GrocerySimulator) (item ps : String) : GrocerySimulator :=
  match pFloat ps with
  | some pct => { s with discounts := upsertA s.discounts item [] (fun st => st ++ [pct]) }
  | none => setInv s

/-- DISCOUNT_END branch (lines 251-258): the truthiness test reads
`self.discounts[item]` and therefore inserts the key even when the pop
is a no-op. -/
def doDISCOUNT_END (s : GrocerySimulator) (item : String) : GrocerySimulator :=
  let st := dGet s.discounts item []
  if st = [] then { s with discounts := touchA s.discounts item [] }
  else { s with discounts := upsertA s.discounts item [] (fun st2 => st2.dropLast) }

/-- Printing loop of CHECK (lines 275-277): `_total_available` reads
`self.inventory[item]`, inserting each printed key. -/
def checkFold (inv : List (String × List Batch)) :
    List String → List (String × List Batch) × List String
  | [] => (inv, [])
  | k :: ks =>
    let q := sumQty (dGet inv k [])
    let res := checkFold (touchA inv k []) ks
    (res.1, (k ++ ": " ++ toString q) :: res.2)

/-- CHECK branch (lines 260-277). -/
def doCHECK (s : GrocerySimulator) : GrocerySimulator × List String :=
  if s.invalid then (s, [])
  else
    let allItems := sortKeys
      ((s.inventory.map Prod.fst ++ s.discounts.map Prod.fst ++ s.sales.map Prod.fst).dedup)
    let res := checkFold s.inventory allItems
    ({ s with inventory := res.1 }, res.2)

/-- Dispatch over a tokenised line: the body of `process_line` from the
split (line 61) on, including the poison gate (line 68), arity checks,
and the unknown-command fallthrough.  The returned strings are the lines
the branch prints. -/
def process_parts (s : GrocerySimulator) (parts : List String) :
    GrocerySimulator × List String :=
  match parts with
  | [] => (s, [])
  | command :: _ =>
    if s.invalid ∧ command ≠ "CHECK" ∧ command ≠ "PROFIT" then (s, [])
    else if command = "STOCK" then
      match parts with
      | [_, item, qs, cs] => (doSTOCK s item qs cs, [])
      | _ => (setInv s, [])
    else if command = "ORDER" then
      match parts with
      | [_, item, qs, ss] => (doORDER s item qs ss, [])
      | _ => (setInv s, [])
    else if command = "EXPIRE" then
      match parts with
      | [_, item, qs] => (doEXPIRE s item qs, [])
      | _ => (setInv s, [])
    else if command = "RETURN" then
      match parts with
      | [_, item, qs, ss] => (doRETURN s item qs ss, [])
      | _ => (setInv s, [])
    else if command = "DISCOUNT" then
      match parts with
      | [_, item, ps] => (doDISCOUNT s item ps, [])
      | _ => (setInv s, [])
    else if command = "DISCOUNT_END" then
      match parts with
      | [_, item] => (doDISCOUNT_END s item, [])
      | _ => (setInv s, [])
    else if command = "CHECK" then
      match parts with
      | [_] => doCHECK s
      | _ => (setInv s, [])
    else if command = "PROFIT" then
      match parts with
      | [_] =>
        if s.invalid then (s, ["Profit/Loss: NA"])
        else (s, ["Profit/Loss: $" ++ fmt2 s.profit])
      | _ => (setInv s, [])
    else (setInv s, [])

/-- One call of `process_line`: strip, drop blank and comment lines,
split on whitespace, dispatch. -/
def process_line (s : GrocerySimulator) (line : String) :
    GrocerySimulator × List String :=
  let t := trimChars line.data
  match t with
  | [] => (s, [])
  | c :: _ => if c = '#' then (s, []) else process_parts s (tokens t)

/-- Process a list of lines in order, concatenating the printed output:
the loop of `run_file` after the state reset (file reading excluded). -/
def run_lines (s : GrocerySimulator) : List String → GrocerySimulator × List String
  | [] => (s, [])
  | l :: ls =>
    let r := process_line s l
    let rest := run_lines r.1 ls
    (rest.1, r.2 ++ rest.2)

/-! ## Specification-side notions -/

/-- Trace of the slices a RETURN consumes from one lot, in consumption
order: triples of quantity, unit cost and discounted unit sell price. -/
def retCompTrace (r : ℤ) : List SaleComponent → List (ℤ × ℚ × ℚ)
  | [] => []
  | c :: rest =>
    if r ≤ 0 then []
    else if c.qty ≤ 0 then retCompTrace r rest
    else
      let take := min r c.qty
      if c.qty - take = 0 then
        (take, c.unit_cost, c.unit_sell_after_discount) :: retCompTrace (r - take) rest
      else [(take, c.unit_cost, c.unit_sell_after_discount)]

/-- Trace of all slices a RETURN consumes, walking the given lot list in
order (callers pass the stored list reversed, newest lot first) and each
lot components oldest first. -/
def retLotsTrace (r : ℤ) : List SaleLot → List (ℤ × ℚ × ℚ)
  | [] => []
  | lot :: rest =>
    if r ≤ 0 then []
    else if lot.total_qty ≤ 0 then retLotsTrace r rest
    else
      let lq := min r lot.total_qty
      retCompTrace lq lot.components ++ retLotsTrace (r - lq) rest

/-- Profit carried by a trace: each slice of `t` units taken from a
component sold at discounted unit price `sd` with unit cost `c`
contributes `t * (sd - c)`, the amount the sale added per slice. -/
def traceSum (tr : List (ℤ × ℚ × ℚ)) : ℚ :=
  (tr.map (fun x => (x.1 : ℚ) * (x.2.2 - x.2.1))).sum

/-- All batch quantities of a list are non-negative. -/
def batchesNN (bs : List Batch) : Prop := ∀ b ∈ bs, 0 ≤ b.qty

/-- All component quantities of a list are non-negative. -/
def compsNN (cs : List SaleComponent) : Prop := ∀ c ∈ cs, 0 ≤ c.qty

/-- Structural invariant of one sale lot: non-negative remainder that
equals the sum of its component quantities, all non-negative. -/
def lotWF (lot : SaleLot) : Prop :=
  0 ≤ lot.total_qty ∧ lot.total_qty = compSum lot.components ∧ compsNN lot.components

/-- Structural invariant of a simulator state: every stored batch list
is non-negative and every stored sale lot is well formed. -/
def StateWF (s : GrocerySimulator) : Prop :=
  (∀ kv ∈ s.inventory, batchesNN kv.2) ∧
  (∀ kv ∈ s.sales, ∀ pl ∈ kv.2, ∀ lot ∈ pl.2, lotWF lot)

instance decidableLotWF (lot : SaleLot) : Decidable (lotWF lot) := by
  unfold lotWF compsNN
  infer_instance

instance decidableStateWF (s : GrocerySimulator) : Decidable (StateWF s) := by
  unfold StateWF batchesNN
  infer_instance

/-- The eight known command keywords. -/
def knownCmds : List String :=
  ["STOCK", "ORDER", "EXPIRE", "RETURN", "DISCOUNT", "DISCOUNT_END", "CHECK", "PROFIT"]

/-- Token lists `process_line` rejects before touching the ledgers:
unknown keyword, wrong token count for a known keyword, or a numeric
argument that does not parse. -/
def malformedB (parts : List String) : Bool :=
  match parts with
  | [] => false
  | command :: _ =>
    !(knownCmds.contains command) ||
    (command == "STOCK" && parts.length != 4) ||
    (command == "ORDER" && parts.length != 4) ||
    (command == "EXPIRE" && parts.length != 3) ||
    (command == "RETURN" && parts.length != 4) ||
    (command == "DISCOUNT" && parts.length != 3) ||
    (command == "DISCOUNT_END" && parts.length != 2) ||
    (command == "CHECK" && parts.length != 1) ||
    (command == "PROFIT" && parts.length != 1) ||
    (match parts with
     | ["STOCK", _, q, c] => (pFloat q).isNone || (pFloat c).isNone
     | ["ORDER", _, q, p] => (pFloat q).isNone || (pFloat p).isNone
     | ["RETURN", _, q, p] => (pFloat q).isNone || (pFloat p).isNone
     | ["EXPIRE", _, q] => (pFloat q).isNone
     | ["DISCOUNT", _, p] => (pFloat p).isNone
     | _ => false)

/-- Propositional form of the rejection predicate. -/
def Malformed (parts : List String) : Prop := malformedB parts = true

instance decidableMalformed (parts : List String) : Decidable (Malformed parts) := by
  unfold Malformed
  infer_instance

/-- Observable agreement of two states: every ledger read (through the
defaultdict access the code itself uses) and the profit accumulator give
the same results.  Key sets may differ by keys bound to empty values,
which no command or report can distinguish. -/
def obsEq (s t : GrocerySimulator) : Prop :=
  (∀ k, dGet s.inventory k [] = dGet t.inventory k []) ∧
  (∀ k, dGet s.discounts k [] = dGet t.discounts k []) ∧
  (∀ k, dGet s.sales k [] = dGet t.sales k []) ∧
  s.profit = t.profit

/-- Profit contribution a list of sale components made when sold: each
component of quantity `q`, unit cost `c` and discounted unit sell price
`sd` contributed `q * (sd - c)`. -/
def compContrib (cs : List SaleComponent) : ℚ :=
  (cs.map (fun c => (c.qty : ℚ) * (c.unit_sell_after_discount - c.unit_cost))).sum

/-- Units available to return for an item at an exact price in a state:
zero when the item or the price was never sold. -/
def salesAvail (s : GrocerySimulator) (item : String) (price : ℚ) : ℤ :=
  match lookupA s.sales item with
  | none => 0
  | some pm =>
    match lookupA pm price with
    | none => 0
    | some lots => retAvail lots

/-- The official spec scenario, one command per line. -/
def demoLines : List String :=
  ["STOCK Apple 100 1.00", "ORDER Apple 50 2.00", "STOCK Peer 20 1.50",
   "DISCOUNT Apple 10", "ORDER Apple 20 2.00", "DISCOUNT Apple 5",
   "ORDER Apple 10 2.00", "DISCOUNT_END Apple", "ORDER Apple 10 2.00",
   "RETURN Apple 5 2.00", "EXPIRE Apple 5", "CHECK", "PROFIT"]

/-! ## Lemmas about the ledgers -/

theorem setInv_eq_self {s : GrocerySimulator} (h : s.invalid = true) : setInv s = s := by
  cases s
  simp only [setInv]
  simp_all

theorem lookupA_upsertA_self {α β : Type} [DecidableEq α] (d : List (α × β)) (k : α)
    (dflt : β) (f : β → β) : lookupA (upsertA d k dflt f) k = some (f (dGet d k dflt)) := by
  induction d with
  | nil => simp [upsertA, lookupA, dGet]
  | cons kv rest ih =>
    by_cases h : kv.1 = k
    · simp [upsertA, lookupA, dGet, h]
    · simp [upsertA, lookupA, dGet, h, ih]

theorem lookupA_upsertA_ne {α β : Type} [DecidableEq α] (d : List (α × β)) (k j : α)
    (dflt : β) (f : β → β) (hjk : j ≠ k) :
    lookupA (upsertA d k dflt f) j = lookupA d j := by
  have hkj : ¬ (k = j) := fun hh => hjk hh.symm
  induction d with
  | nil => simp [upsertA, lookupA, hkj]
  | cons kv rest ih =>
    by_cases h : kv.1 = k
    · simp [upsertA, lookupA, h, hkj]
    · by_cases h2 : kv.1 = j <;> simp [upsertA, lookupA, h, h2, hjk, ih]

theorem dGet_touchA {α β : Type} [DecidableEq α] (d : List (α × β)) (k j : α) (dflt : β) :
    dGet (touchA d k dflt) j dflt = dGet d j dflt := by
  by_cases hjk : j = k
  · subst hjk
    simp [dGet, touchA, lookupA_upsertA_self]
  · simp [dGet, touchA, lookupA_upsertA_ne _ _ _ _ _ hjk]

theorem dGet_upsertA_self {α β : Type} [DecidableEq α] (d : List (α × β)) (k : α)
    (dflt : β) (f : β → β) : dGet (upsertA d k dflt f) k dflt = f (dGet d k dflt) := by
  simp [dGet, lookupA_upsertA_self]

theorem mem_keys_upsertA {α β : Type} [DecidableEq α] (d : List (α × β)) (k : α)
    (dflt : β) (f : β → β) : k ∈ (upsertA d k dflt f).map Prod.fst := by
  induction d with
  | nil => simp [upsertA]
  | cons kv rest ih =>
    by_cases h : kv.1 = k <;> simp [upsertA, h, ih]

theorem forall_upsertA {α β : Type} [DecidableEq α] {P : β → Prop} (d : List (α × β))
    (k : α) (dflt : β) (f : β → β) (hd : ∀ kv ∈ d, P kv.2) (hf : ∀ b, P b → P (f b))
    (hdflt : P dflt) : ∀ kv ∈ upsertA d k dflt f, P kv.2 := by
  induction d with
  | nil => simpa [upsertA] using hf dflt hdflt
  | cons kv rest ih =>
    by_cases h : kv.1 = k
    · intro x hx
      simp only [upsertA, h, if_pos rfl] at hx
      rcases List.mem_cons.1 hx with h1 | h1
      · subst h1; exact hf _ (hd kv (List.mem_cons_self _ _))
      · exact hd x (List.mem_cons_of_mem _ h1)
    · intro x hx
      simp only [upsertA, h, if_neg h] at hx
      rcases List.mem_cons.1 hx with h1 | h1
      · subst h1; exact hd _ (List.mem_cons_self _ _)
      · exact ih (fun y hy => hd y (List.mem_cons_of_mem _ hy)) x h1

/-! ## Behaviour of poisoned states -/

theorem process_parts_inv (s : GrocerySimulator) (h : s.invalid = true) (parts : List String) :
    (process_parts s parts).1 = s ∧
      ((process_parts s parts).2 = [] ∨ (process_parts s parts).2 = ["Profit/Loss: NA"]) := by
  match parts with
  | [] => simp [process_parts]
  | command :: rest =>
    by_cases h1 : command = "CHECK"
    · subst h1
      match rest with
      | [] => simp [process_parts, doCHECK, h]
      | a :: rest2 => simp [process_parts, setInv_eq_self h]
    · by_cases h2 : command = "PROFIT"
      · subst h2
        match rest with
        | [] => simp [process_parts, h]
        | a :: rest2 => simp [process_parts, setInv_eq_self h]
      · simp [process_parts, h, h1, h2]

theorem process_line_inv (s : GrocerySimulator) (h : s.invalid = true) (line : String) :
    (process_line s line).1 = s ∧
      ((process_line s line).2 = [] ∨ (process_line s line).2 = ["Profit/Loss: NA"]) := by
  unfold process_line
  match ht : trimChars line.data with
  | [] => simp
  | c :: rest =>
    by_cases hc : c = '#'
    · simp [hc]
    · simpa [hc] using process_parts_inv s h (tokens (c :: rest))

theorem run_lines_inv (s : GrocerySimulator) (h : s.invalid = true) (ls : List String) :
    (run_lines s ls).1 = s := by
  induction ls with
  | nil => rfl
  | cons l ls ih =>
    simp only [run_lines]
    rw [(process_line_inv s h l).1]
    exact ih

/-! ## Sums and membership -/

theorem sumQty_cons (b : Batch) (l : List Batch) : sumQty (b :: l) = b.qty + sumQty l := by
  simp [sumQty]

theorem compSum_cons (c : SaleComponent) (l : List SaleComponent) :
    compSum (c :: l) = c.qty + compSum l := by
  simp [compSum]

theorem compContrib_cons (c : SaleComponent) (l : List SaleComponent) :
    compContrib (c :: l)
      = (c.qty : ℚ) * (c.unit_sell_after_discount - c.unit_cost) + compContrib l := by
  simp [compContrib]

theorem retAvail_cons (lot : SaleLot) (l : List SaleLot) :
    retAvail (lot :: l) = max 0 lot.total_qty + retAvail l := by
  simp [retAvail]

theorem retAvail_nonneg (l : List SaleLot) : 0 ≤ retAvail l := by
  induction l with
  | nil => simp [retAvail]
  | cons lot rest ih =>
    rw [retAvail_cons]
    have := le_max_left 0 lot.total_qty
    omega

theorem retAvail_append (l1 l2 : List SaleLot) :
    retAvail (l1 ++ l2) = retAvail l1 + retAvail l2 := by
  simp [retAvail]

theorem traceSum_cons (x : ℤ × ℚ × ℚ) (l : List (ℤ × ℚ × ℚ)) :
    traceSum (x :: l) = (x.1 : ℚ) * (x.2.2 - x.2.1) + traceSum l := by
  simp [traceSum]

theorem traceSum_append (l1 l2 : List (ℤ × ℚ × ℚ)) :
    traceSum (l1 ++ l2) = traceSum l1 + traceSum l2 := by
  simp [traceSum]

theorem compSum_nonneg (cs : List SaleComponent) (h : compsNN cs) : 0 ≤ compSum cs := by
  induction cs with
  | nil => simp [compSum]
  | cons c rest ih =>
    rw [compSum_cons]
    have h1 := h c (List.mem_cons_self _ _)
    have h2 := ih (fun x hx => h x (List.mem_cons_of_mem _ hx))
    omega

theorem compContrib_zero (cs : List SaleComponent) (h : compsNN cs) (h0 : compSum cs = 0) :
    compContrib cs = 0 := by
  induction cs with
  | nil => simp [compContrib]
  | cons c rest ih =>
    rw [compSum_cons] at h0
    have hc : 0 ≤ c.qty := h c (List.mem_cons_self _ _)
    have hrest : compsNN rest := fun x hx => h x (List.mem_cons_of_mem _ hx)
    have hrnn := compSum_nonneg rest hrest
    have hc0 : c.qty = 0 := by omega
    rw [compContrib_cons, hc0, ih hrest (by omega)]
    simp

theorem lookupA_mem {α β : Type} [DecidableEq α] (d : List (α × β)) (k : α) (b : β)
    (h : lookupA d k = some b) : (k, b) ∈ d := by
  induction d with
  | nil => simp [lookupA] at h
  | cons kv rest ih =>
    by_cases hk : kv.1 = k
    · rw [lookupA, if_pos hk] at h
      cases h
      subst hk
      exact List.mem_cons_self _ _
    · rw [lookupA, if_neg hk] at h
      exact List.mem_cons_of_mem _ (ih h)

/-! ## Facts about the consumption loops -/

theorem orderLoop_sum (sd : ℚ) (bs : List Batch) : ∀ r : ℤ, 0 ≤ r → r ≤ sumQty bs →
    compSum (orderLoop sd r bs).2.1 = r := by
  induction bs with
  | nil =>
    intro r h0 h1
    simp only [sumQty, List.map_nil, List.sum_nil] at h1
    have : r = 0 := le_antisymm h1 h0
    subst this
    simp [orderLoop, compSum]
  | cons b rest ih =>
    intro r h0 h1
    rw [sumQty_cons] at h1
    by_cases hr : r ≤ 0
    · have : r = 0 := le_antisymm hr h0
      subst this
      simp [orderLoop, compSum]
    · simp only [orderLoop, if_neg hr]
      by_cases hz : b.qty - min r b.qty = 0
      · simp only [if_pos hz]
        try dsimp only
        rw [compSum_cons]
        rw [ih (r - min r b.qty) (by omega) (by omega)]
        try dsimp only
        omega
      · simp only [if_neg hz]
        try dsimp only
        rw [compSum_cons]
        simp only [compSum, List.map_nil, List.sum_nil]
        omega

theorem orderLoop_delta (sd : ℚ) (bs : List Batch) : ∀ r : ℤ,
    (orderLoop sd r bs).2.2 = compContrib (orderLoop sd r bs).2.1 := by
  induction bs with
  | nil => intro r; simp [orderLoop, compContrib]
  | cons b rest ih =>
    intro r
    by_cases hr : r ≤ 0
    · simp [orderLoop, hr, compContrib]
    · simp only [orderLoop, if_neg hr]
      by_cases hz : b.qty - min r b.qty = 0
      · simp only [if_pos hz]
        try dsimp only
        rw [compContrib_cons, ih (r - min r b.qty), radd_eq, rmul_eq, rsub_eq]
      · simp only [if_neg hz]
        try dsimp only
        rw [compContrib_cons]
        simp only [compContrib, List.map_nil, List.sum_nil, add_zero]
        rw [rmul_eq, rsub_eq]

theorem orderLoop_compsNN (sd : ℚ) (bs : List Batch) : ∀ r : ℤ, batchesNN bs →
    compsNN (orderLoop sd r bs).2.1 := by
  induction bs with
  | nil => intro r _; simp [orderLoop, compsNN]
  | cons b rest ih =>
    intro r hnn
    have hb : 0 ≤ b.qty := hnn b (List.mem_cons_self _ _)
    have hrest : batchesNN rest := fun x hx => hnn x (List.mem_cons_of_mem _ hx)
    by_cases hr : r ≤ 0
    · simp [orderLoop, hr, compsNN]
    · simp only [orderLoop, if_neg hr]
      by_cases hz : b.qty - min r b.qty = 0
      · simp only [if_pos hz]
        try dsimp only
        intro c hc
        rcases List.mem_cons.1 hc with h | h
        · subst h; try dsimp only; omega
        · exact ih (r - min r b.qty) hrest c h
      · simp only [if_neg hz]
        try dsimp only
        intro c hc
        rcases List.mem_cons.1 hc with h | h
        · subst h; try dsimp only; omega
        · simp at h

theorem orderLoop_batchesNN (sd : ℚ) (bs : List Batch) : ∀ r : ℤ, batchesNN bs →
    batchesNN (orderLoop sd r bs).1 := by
  induction bs with
  | nil => intro r _; simp [orderLoop, batchesNN]
  | cons b rest ih =>
    intro r hnn
    have hb : 0 ≤ b.qty := hnn b (List.mem_cons_self _ _)
    have hrest : batchesNN rest := fun x hx => hnn x (List.mem_cons_of_mem _ hx)
    by_cases hr : r ≤ 0
    · simpa [orderLoop, hr] using hnn
    · simp only [orderLoop, if_neg hr]
      by_cases hz : b.qty - min r b.qty = 0
      · simp only [if_pos hz]
        exact ih (r - min r b.qty) hrest
      · simp only [if_neg hz]
        try dsimp only
        intro x hx
        rcases List.mem_cons.1 hx with h | h
        · subst h; try dsimp only; omega
        · exact hrest x h

theorem expireLoop_batchesNN (bs : List Batch) : ∀ r : ℤ, batchesNN bs →
    batchesNN (expireLoop r bs).1 := by
  induction bs with
  | nil => intro r _; simp [expireLoop, batchesNN]
  | cons b rest ih =>
    intro r hnn
    have hb : 0 ≤ b.qty := hnn b (List.mem_cons_self _ _)
    have hrest : batchesNN rest := fun x hx => hnn x (List.mem_cons_of_mem _ hx)
    by_cases hr : r ≤ 0
    · simpa [expireLoop, hr] using hnn
    · simp only [expireLoop, if_neg hr]
      by_cases hz : b.qty - min r b.qty = 0
      · simp only [if_pos hz]
        exact ih (r - min r b.qty) hrest
      · simp only [if_neg hz]
        try dsimp only
        intro x hx
        rcases List.mem_cons.1 hx with h | h
        · subst h; try dsimp only; omega
        · exact hrest x h

theorem returnCompLoop_trace (cs : List SaleComponent) : ∀ r : ℤ,
    (returnCompLoop r cs).2 = traceSum (retCompTrace r cs) := by
  induction cs with
  | nil => intro r; simp [returnCompLoop, retCompTrace, traceSum]
  | cons c rest ih =>
    intro r
    by_cases hr : r ≤ 0
    · simp [returnCompLoop, retCompTrace, hr, traceSum]
    · by_cases hq : c.qty ≤ 0
      · simp only [returnCompLoop, retCompTrace, if_neg hr, if_pos hq]
        exact ih r
      · simp only [returnCompLoop, retCompTrace, if_neg hr, if_neg hq]
        by_cases hz : c.qty - min r c.qty = 0
        · simp only [if_pos hz]
          try dsimp only
          rw [traceSum_cons, ih (r - min r c.qty), radd_eq, rmul_eq, rsub_eq]
        · simp only [if_neg hz]
          try dsimp only
          rw [traceSum_cons]
          simp only [traceSum, List.map_nil, List.sum_nil, add_zero]
          rw [rmul_eq, rsub_eq]

theorem returnCompLoop_wf (cs : List SaleComponent) : ∀ r : ℤ, compsNN cs → 0 ≤ r →
    r ≤ compSum cs →
    compsNN (returnCompLoop r cs).1 ∧ compSum (returnCompLoop r cs).1 = compSum cs - r := by
  induction cs with
  | nil =>
    intro r _ h0 h1
    simp only [compSum, List.map_nil, List.sum_nil] at h1
    have : r = 0 := le_antisymm h1 h0
    subst this
    simp [returnCompLoop, compsNN, compSum]
  | cons c rest ih =>
    intro r hnn h0 h1
    have hc : 0 ≤ c.qty := hnn c (List.mem_cons_self _ _)
    have hrest : compsNN rest := fun x hx => hnn x (List.mem_cons_of_mem _ hx)
    rw [compSum_cons] at h1
    by_cases hr : r ≤ 0
    · have : r = 0 := le_antisymm hr h0
      subst this
      simp only [returnCompLoop, if_pos le_rfl]
      exact ⟨hnn, by rw [compSum_cons]; omega⟩
    · by_cases hq : c.qty ≤ 0
      · have hc0 : c.qty = 0 := le_antisymm hq hc
        simp only [returnCompLoop, if_neg hr, if_pos hq]
        have := ih r hrest h0 (by omega)
        rw [compSum_cons]
        exact ⟨this.1, by omega⟩
      · simp only [returnCompLoop, if_neg hr, if_neg hq]
        by_cases hz : c.qty - min r c.qty = 0
        · simp only [if_pos hz]
          have hrec := ih (r - min r c.qty) hrest (by omega)
            (by have := compSum_nonneg rest hrest; omega)
          try dsimp only
          refine ⟨hrec.1, ?_⟩
          rw [hrec.2, compSum_cons]
          omega
        · simp only [if_neg hz]
          try dsimp only
          constructor
          · intro x hx
            rcases List.mem_cons.1 hx with h | h
            · subst h; try dsimp only; omega
            · exact hrest x h
          · rw [compSum_cons, compSum_cons]
            try dsimp only
            omega

theorem returnCompLoop_full (cs : List SaleComponent) : compsNN cs →
    (returnCompLoop (compSum cs) cs).2 = compContrib cs := by
  induction cs with
  | nil => intro _; simp [returnCompLoop, compSum, compContrib]
  | cons c rest ih =>
    intro hnn
    have hc : 0 ≤ c.qty := hnn c (List.mem_cons_self _ _)
    have hrest : compsNN rest := fun x hx => hnn x (List.mem_cons_of_mem _ hx)
    have hrnn : 0 ≤ compSum rest := compSum_nonneg rest hrest
    rw [compSum_cons]
    by_cases hS : c.qty + compSum rest ≤ 0
    · have hc0 : c.qty = 0 := by omega
      have hr0 : compSum rest = 0 := by omega
      rw [hc0, hr0]
      simp only [add_zero, returnCompLoop, if_pos le_rfl]
      rw [compContrib_cons, hc0, compContrib_zero rest hrest hr0]
      simp
    · simp only [returnCompLoop, if_neg hS]
      by_cases hq : c.qty ≤ 0
      · have hc0 : c.qty = 0 := le_antisymm hq hc
        simp only [if_pos hq]
        rw [compContrib_cons, hc0]
        have := ih hrest
        rw [hc0] at *
        simpa using this
      · simp only [if_neg hq]
        have hmin : min (c.qty + compSum rest) c.qty = c.qty := by omega
        have hz : c.qty - min (c.qty + compSum rest) c.qty = 0 := by omega
        simp only [if_pos hz]
        rw [hmin]
        try dsimp only
        have harg : c.qty + compSum rest - c.qty = compSum rest := by omega
        rw [harg, ih hrest, compContrib_cons, radd_eq, rmul_eq, rsub_eq]

theorem returnLotsLoop_zero (ls : List SaleLot) (r : ℤ) (h : r ≤ 0) :
    returnLotsLoop r ls = (ls, 0) := by
  cases ls <;> simp [returnLotsLoop, h]

theorem returnLotsLoop_trace (ls : List SaleLot) : ∀ r : ℤ,
    (returnLotsLoop r ls).2 = traceSum (retLotsTrace r ls) := by
  induction ls with
  | nil => intro r; simp [returnLotsLoop, retLotsTrace, traceSum]
  | cons lot rest ih =>
    intro r
    by_cases hr : r ≤ 0
    · simp [returnLotsLoop, retLotsTrace, hr, traceSum]
    · by_cases hq : lot.total_qty ≤ 0
      · simp only [returnLotsLoop, retLotsTrace, if_neg hr, if_pos hq]
        exact ih r
      · simp only [returnLotsLoop, retLotsTrace, if_neg hr, if_neg hq]
        try dsimp only
        rw [traceSum_append, radd_eq, returnCompLoop_trace, ih (r - min r lot.total_qty)]

theorem returnLotsLoop_wf (ls : List SaleLot) : ∀ r : ℤ, (∀ lot ∈ ls, lotWF lot) →
    ∀ lot ∈ (returnLotsLoop r ls).1, lotWF lot := by
  induction ls with
  | nil => intro r _; simp [returnLotsLoop]
  | cons lot rest ih =>
    intro r hwf
    have hlot : lotWF lot := hwf lot (List.mem_cons_self _ _)
    have hrest : ∀ x ∈ rest, lotWF x := fun x hx => hwf x (List.mem_cons_of_mem _ hx)
    by_cases hr : r ≤ 0
    · simpa [returnLotsLoop, hr] using hwf
    · by_cases hq : lot.total_qty ≤ 0
      · simp only [returnLotsLoop, if_neg hr, if_pos hq]
        intro x hx
        rcases List.mem_cons.1 hx with h | h
        · subst h; exact hlot
        · exact ih r hrest x h
      · simp only [returnLotsLoop, if_neg hr, if_neg hq]
        try dsimp only
        intro x hx
        rcases List.mem_cons.1 hx with h | h
        · subst h
          obtain ⟨h1, h2, h3⟩ := hlot
          have hwfc := returnCompLoop_wf lot.components (min r lot.total_qty) h3
            (by omega) (by omega)
          exact ⟨by try dsimp only; omega, by try dsimp only; rw [hwfc.2]; omega, hwfc.1⟩
        · exact ih (r - min r lot.total_qty) hrest x h

/-! ## The CHECK report -/

theorem checkFold_out (ks : List String) : ∀ inv,
    (checkFold inv ks).2 = ks.map (fun k => k ++ ": " ++ toString (sumQty (dGet inv k []))) := by
  induction ks with
  | nil => intro inv; rfl
  | cons k ks ih =>
    intro inv
    simp only [checkFold, List.map_cons, List.cons.injEq, true_and]
    rw [ih (touchA inv k [])]
    simp only [dGet_touchA]

theorem mem_insertSorted (x a : String) (l : List String) :
    a ∈ insertSorted x l ↔ a = x ∨ a ∈ l := by
  induction l with
  | nil => simp [insertSorted]
  | cons y ys ih =>
    by_cases h : strLtB x y
    · simp [insertSorted, h]
    · simp [insertSorted, h, ih]
      tauto

theorem mem_sortKeys (a : String) (l : List String) : a ∈ sortKeys l ↔ a ∈ l := by
  induction l with
  | nil => simp [sortKeys]
  | cons x xs ih =>
    simp only [sortKeys, List.foldr_cons, List.mem_cons]
    rw [mem_insertSorted]
    rw [show List.foldr insertSorted [] xs = sortKeys xs from rfl] at *
    tauto

/-! ## Operational characterisations of ORDER and RETURN -/

theorem wf_dGet_inventory (s : GrocerySimulator) (h : StateWF s) (i : String) :
    batchesNN (dGet s.inventory i []) := by
  rcases hl : lookupA s.inventory i with _ | bs
  · simp [dGet, hl, batchesNN]
  · have := h.1 (i, bs) (lookupA_mem _ _ _ hl)
    simpa [dGet, hl] using this

theorem wf_lots (s : GrocerySimulator) (h : StateWF s) (i : String) (pv : ℚ)
    (pm : PriceMap) (lots : List SaleLot) (h1 : lookupA s.sales i = some pm)
    (h2 : lookupA pm pv = some lots) : ∀ lot ∈ lots, lotWF lot :=
  h.2 (i, pm) (lookupA_mem _ _ _ h1) (pv, lots) (lookupA_mem _ _ _ h2)

/-- The successful ORDER branch in one equation. -/
theorem order_sem (s : GrocerySimulator) (i qs t1 : String) (qv v : ℚ)
    (hI : s.invalid = false) (hq : pFloat qs = some qv) (h1 : pFloat t1 = some v)
    (hpos : 0 < qtrunc qv) (hv : 0 ≤ v) (hav : qtrunc qv ≤ total_available s i) :
    process_parts s ["ORDER", i, qs, t1]
      = ({ s with
            inventory := upsertA (touchA s.inventory i []) i []
              (fun _ => (orderLoop (sell_after s i v) (qtrunc qv) (dGet s.inventory i [])).1)
            discounts := touchA s.discounts i []
            sales := upsertA s.sales i [] (fun pm => upsertA pm v []
              (fun lots => lots ++ [⟨sell_after s i v, qtrunc qv,
                (orderLoop (sell_after s i v) (qtrunc qv) (dGet s.inventory i [])).2.1⟩]))
            profit := radd s.profit
              (orderLoop (sell_after s i v) (qtrunc qv) (dGet s.inventory i [])).2.2 }, []) := by
  simp [process_parts, hI, doORDER, hq, h1, not_lt.2 hpos.le, hpos.ne', not_lt.2 hv,
    not_lt.2 hav]

/-- The successful RETURN branch in one equation. -/
theorem return_sem (t : GrocerySimulator) (i qs ps : String) (qv pv : ℚ)
    (hI : t.invalid = false) (hq : pFloat qs = some qv) (hp : pFloat ps = some pv)
    (hpos : 0 < qtrunc qv) (pm : PriceMap) (lots : List SaleLot)
    (hsi : lookupA t.sales i = some pm) (hpm : lookupA pm pv = some lots)
    (hav : qtrunc qv ≤ retAvail lots) :
    process_parts t ["RETURN", i, qs, ps]
      = ({ t with
            sales := upsertA t.sales i [] (fun pmv => upsertA pmv pv []
              (fun _ => (returnLotsLoop (qtrunc qv) lots.reverse).1.reverse))
            profit := rsub t.profit (returnLotsLoop (qtrunc qv) lots.reverse).2 }, []) := by
  simp [process_parts, hI, doRETURN, hq, hp, not_lt.2 hpos.le, hpos.ne', hsi, hpm,
    not_lt.2 hav]

/-- A RETURN of the full quantity of the lot appended last consumes
exactly that lot and leaves every earlier lot untouched. -/
theorem returnLotsLoop_last (lots0 : List SaleLot) (lot : SaleLot) (q : ℤ)
    (hq : 0 < q) (htot : lot.total_qty = q) :
    returnLotsLoop q ((lots0 ++ [lot]).reverse)
      = (⟨lot.sell_price_after_discount, lot.total_qty - q,
          (returnCompLoop q lot.components).1⟩ :: lots0.reverse,
          radd (returnCompLoop q lot.components).2 0) := by
  have hrev : (lots0 ++ [lot]).reverse = lot :: lots0.reverse := by simp
  rw [hrev]
  simp only [returnLotsLoop]
  rw [if_neg (by omega : ¬ q ≤ 0)]
  rw [if_neg (show ¬ lot.total_qty ≤ 0 from by omega)]
  rw [show min q lot.total_qty = q from by omega]
  rw [returnLotsLoop_zero _ _ (by omega : q - q ≤ 0)]

/-- Selling and immediately returning the same quantity at the same
parsed price cancels out in the profit: the core of C3 and C10. -/
theorem order_return_core (s : GrocerySimulator) (i qs t1 t2 : String) (qv v : ℚ)
    (hWF : StateWF s) (hI : s.invalid = false)
    (hq : pFloat qs = some qv) (h1 : pFloat t1 = some v) (h2 : pFloat t2 = some v)
    (hpos : 0 < qtrunc qv) (hv : 0 ≤ v) (hav : qtrunc qv ≤ total_available s i) :
    (process_parts (process_parts s ["ORDER", i, qs, t1]).1 ["RETURN", i, qs, t2]).1.invalid
      = false ∧
    (process_parts (process_parts s ["ORDER", i, qs, t1]).1 ["RETURN", i, qs, t2]).1.profit
      = s.profit ∧
    (process_parts (process_parts s ["ORDER", i, qs, t1]).1 ["RETURN", i, qs, t2]).1.inventory
      = (process_parts s ["ORDER", i, qs, t1]).1.inventory := by
  have hOS := order_sem s i qs t1 qv v hI hq h1 hpos hv hav
  rw [hOS]
  set sd : ℚ := sell_after s i v with hsd
  set q : ℤ := qtrunc qv with hqd
  set bs : List Batch := dGet s.inventory i [] with hbs
  set OL := orderLoop sd q bs with hOL
  set newLot : SaleLot := ⟨sd, q, OL.2.1⟩ with hnew
  have hl1 : lookupA (upsertA s.sales i []
      (fun pm => upsertA pm v [] (fun lots => lots ++ [newLot]))) i
      = some (upsertA (dGet s.sales i []) v [] (fun lots => lots ++ [newLot])) :=
    lookupA_upsertA_self s.sales i ([] : PriceMap)
      (fun pm => upsertA pm v [] (fun lots => lots ++ [newLot]))
  have hl2 : lookupA (upsertA (dGet s.sales i []) v [] (fun lots => lots ++ [newLot])) v
      = some (dGet (dGet s.sales i []) v [] ++ [newLot]) :=
    lookupA_upsertA_self (dGet s.sales i []) v ([] : List SaleLot)
      (fun lots => lots ++ [newLot])
  have havail : q ≤ retAvail (dGet (dGet s.sales i []) v [] ++ [newLot]) := by
    rw [retAvail_append]
    have h3 := retAvail_nonneg (dGet (dGet s.sales i []) v [])
    have h4 : retAvail [newLot] = max 0 newLot.total_qty := by
      simp [retAvail]
    have h5 : newLot.total_qty = q := rfl
    omega
  have hRS := return_sem
    ({ s with
        inventory := upsertA (touchA s.inventory i []) i [] (fun _ => OL.1)
        discounts := touchA s.discounts i []
        sales := upsertA s.sales i []
          (fun pm => upsertA pm v [] (fun lots => lots ++ [newLot]))
        profit := radd s.profit OL.2.2 })
    i qs t2 qv v hI hq h2 hpos _ _ hl1 hl2 havail
  rw [hRS]
  refine ⟨hI, ?_, rfl⟩
  show rsub (radd s.profit OL.2.2)
      (returnLotsLoop q (dGet (dGet s.sales i []) v [] ++ [newLot]).reverse).2 = s.profit
  rw [returnLotsLoop_last _ _ _ hpos rfl]
  have hcompseq : newLot.components = OL.2.1 := rfl
  rw [hcompseq]
  have hsum : compSum OL.2.1 = q := orderLoop_sum sd bs q hpos.le hav
  have hNN : compsNN OL.2.1 := orderLoop_compsNN sd bs q (wf_dGet_inventory s hWF i)
  have hfull : (returnCompLoop q OL.2.1).2 = compContrib OL.2.1 := by
    rw [← hsum]
    exact returnCompLoop_full _ hNN
  have hdelta : OL.2.2 = compContrib OL.2.1 := orderLoop_delta sd bs q
  rw [hfull, ← hdelta, rsub_eq, radd_eq, radd_eq]
  ring

/-! ## Preservation of the structural invariant -/

theorem wf_setInv {s : GrocerySimulator} (h : StateWF s) : StateWF (setInv s) := h

theorem batchesNN_append (bs : List Batch) (b : Batch) (h : batchesNN bs) (hb : 0 ≤ b.qty) :
    batchesNN (bs ++ [b]) := by
  intro x hx
  rcases List.mem_append.1 hx with h1 | h1
  · exact h x h1
  · rcases List.mem_singleton.1 h1 with rfl
    exact hb

theorem wf_inv_update {s : GrocerySimulator} (h : StateWF s) (inv2 : List (String × List Batch))
    (h2 : ∀ kv ∈ inv2, batchesNN kv.2) : StateWF { s with inventory := inv2 } :=
  ⟨h2, h.2⟩

theorem wf_doSTOCK (s : GrocerySimulator) (item qs cs : String) (h : StateWF s) :
    StateWF (doSTOCK s item qs cs) := by
  rcases hq : pFloat qs with _ | qf <;> rcases hc : pFloat cs with _ | cost <;>
    simp only [doSTOCK, hq, hc]
  · exact h
  · exact h
  · exact h
  · split_ifs with hbad hpos2
    · exact h
    · refine wf_inv_update h _ ?_
      refine forall_upsertA s.inventory item [] _ h.1 ?_ ?_
      · intro b hb
        refine batchesNN_append b _ hb ?_
        show (0 : ℤ) ≤ qtrunc qf
        omega
      · intro x hx
        simp at hx
    · exact h

theorem checkFold_wf (ks : List String) : ∀ inv, (∀ kv ∈ inv, batchesNN kv.2) →
    ∀ kv ∈ (checkFold inv ks).1, batchesNN kv.2 := by
  induction ks with
  | nil => intro inv h kv hkv; exact h kv hkv
  | cons k ks ih =>
    intro inv h
    simp only [checkFold]
    refine ih (touchA inv k []) ?_
    refine forall_upsertA inv k [] _ h (fun b hb => hb) ?_
    intro x hx
    simp at hx

theorem wf_doCHECK (s : GrocerySimulator) (h : StateWF s) : StateWF (doCHECK s).1 := by
  by_cases hI : s.invalid
  · simpa [doCHECK, hI] using h
  · simp only [doCHECK, hI, Bool.false_eq_true, if_false]
    exact wf_inv_update h _ (checkFold_wf _ s.inventory h.1)

theorem wf_doEXPIRE (s : GrocerySimulator) (item qs : String) (h : StateWF s) :
    StateWF (doEXPIRE s item qs) := by
  rcases hq : pFloat qs with _ | qf <;> simp only [doEXPIRE, hq]
  · exact h
  · split_ifs with hneg hzero hover
    · exact h
    · exact h
    · refine wf_inv_update h _ ?_
      refine forall_upsertA _ item [] _ ?_ (fun b hb => hb) ?_
      · exact h.1
      · intro x hx; simp at hx
    · refine wf_inv_update h _ ?_
      refine forall_upsertA _ item [] _ ?_ ?_ ?_
      · refine forall_upsertA _ item [] _ h.1 (fun b hb => hb) ?_
        intro x hx; simp at hx
      · intro b _
        exact expireLoop_batchesNN _ (qtrunc qf) (wf_dGet_inventory s h item)
      · intro x hx; simp at hx

theorem wf_doORDER (s : GrocerySimulator) (item qs ss : String) (h : StateWF s) :
    StateWF (doORDER s item qs ss) := by
  rcases hq : pFloat qs with _ | qf <;> rcases hs : pFloat ss with _ | sell <;>
    simp only [doORDER, hq, hs]
  · exact h
  · exact h
  · exact h
  · split_ifs with hneg hzero hover
    · exact h
    · exact h
    · refine wf_inv_update h _ ?_
      refine forall_upsertA _ item [] _ h.1 (fun b hb => hb) ?_
      intro x hx; simp at hx
    · constructor
      · refine forall_upsertA _ item [] _ ?_ ?_ ?_
        · refine forall_upsertA _ item [] _ h.1 (fun b hb => hb) ?_
          intro x hx; simp at hx
        · intro b _
          exact orderLoop_batchesNN _ _ (qtrunc qf) (wf_dGet_inventory s h item)
        · intro x hx; simp at hx
      · refine @forall_upsertA String PriceMap _
          (fun pmv => ∀ pl ∈ pmv, ∀ lot ∈ pl.2, lotWF lot) s.sales item [] _ h.2 ?_ ?_
        · intro pm hpm
          refine @forall_upsertA ℚ (List SaleLot) _
            (fun lots => ∀ lot ∈ lots, lotWF lot) pm sell [] _ hpm ?_ ?_
          · intro lots hlots x hx
            rcases List.mem_append.1 hx with h1 | h1
            · exact hlots x h1
            · rcases List.mem_singleton.1 h1 with rfl
              have hover2 : qtrunc qf ≤ sumQty (dGet s.inventory item []) := not_lt.1 hover
              refine ⟨by show (0:ℤ) ≤ qtrunc qf; omega, ?_, ?_⟩
              · show qtrunc qf = compSum (orderLoop (sell_after s item sell) (qtrunc qf)
                  (dGet s.inventory item [])).2.1
                rw [orderLoop_sum _ _ _ (by omega) hover2]
              · exact orderLoop_compsNN _ _ _ (wf_dGet_inventory s h item)
          · intro x hx; simp at hx
        · intro x hx; simp at hx

theorem wf_doRETURN (s : GrocerySimulator) (item qs ss : String) (h : StateWF s) :
    StateWF (doRETURN s item qs ss) := by
  rcases hq : pFloat qs with _ | qf <;> rcases hs : pFloat ss with _ | sell
  · simp only [doRETURN, hq, hs]; exact h
  · simp only [doRETURN, hq, hs]; exact h
  · simp only [doRETURN, hq, hs]; exact h
  · rcases hsi : lookupA s.sales item with _ | pm
    · simp only [doRETURN, hq, hs, hsi]
      split_ifs <;> exact h
    · rcases hpm : lookupA pm sell with _ | lots
      · simp only [doRETURN, hq, hs, hsi, hpm]
        split_ifs <;> exact h
      · simp only [doRETURN, hq, hs, hsi, hpm]
        split_ifs with hneg hzero hover
        · exact h
        · exact h
        · exact h
        · constructor
          · exact h.1
          · refine @forall_upsertA String PriceMap _
              (fun pmv => ∀ pl ∈ pmv, ∀ lot ∈ pl.2, lotWF lot) s.sales item [] _ h.2 ?_ ?_
            · intro pmv hpmv
              refine @forall_upsertA ℚ (List SaleLot) _
                (fun lots2 => ∀ lot ∈ lots2, lotWF lot) pmv sell [] _ hpmv ?_ ?_
              · intro lots2 _ lot hlot
                rw [List.mem_reverse] at hlot
                refine returnLotsLoop_wf lots.reverse (qtrunc qf) ?_ lot hlot
                intro x hx
                rw [List.mem_reverse] at hx
                exact wf_lots s h item sell pm lots hsi hpm x hx
              · intro x hx; simp at hx
            · intro x hx; simp at hx

theorem wf_doDISCOUNT (s : GrocerySimulator) (item ps : String) (h : StateWF s) :
    StateWF (doDISCOUNT s item ps) := by
  rcases hp : pFloat ps with _ | pct <;> simp only [doDISCOUNT, hp] <;> exact h

theorem wf_doDISCOUNT_END (s : GrocerySimulator) (item : String) (h : StateWF s) :
    StateWF (doDISCOUNT_END s item) := by
  by_cases he : dGet s.discounts item [] = ([] : List ℚ) <;>
    simp only [doDISCOUNT_END, he, if_pos, if_neg] <;> exact h

theorem wf_process_parts (s : GrocerySimulator) (h : StateWF s) (parts : List String) :
    StateWF (process_parts s parts).1 := by
  match parts with
  | [] => exact h
  | command :: rest =>
    by_cases hg : s.invalid = true ∧ command ≠ "CHECK" ∧ command ≠ "PROFIT"
    · simpa [process_parts, hg] using h
    · by_cases h1 : command = "STOCK"
      · subst h1
        have hI : s.invalid = false := by simpa using hg
        rcases rest with _ | ⟨a, _ | ⟨b, _ | ⟨c, _ | ⟨d, t⟩⟩⟩⟩ <;>
          simp [process_parts, hI] <;>
          first
            | exact wf_setInv h
            | exact wf_doSTOCK s a b c h
      · by_cases h2 : command = "ORDER"
        · subst h2
          have hI : s.invalid = false := by simpa using hg
          rcases rest with _ | ⟨a, _ | ⟨b, _ | ⟨c, _ | ⟨d, t⟩⟩⟩⟩ <;>
            simp [process_parts, hI] <;>
            first
              | exact wf_setInv h
              | exact wf_doORDER s a b c h
        · by_cases h3 : command = "EXPIRE"
          · subst h3
            have hI : s.invalid = false := by simpa using hg
            rcases rest with _ | ⟨a, _ | ⟨b, _ | ⟨c, t⟩⟩⟩ <;>
              simp [process_parts, hI] <;>
              first
                | exact wf_setInv h
                | exact wf_doEXPIRE s a b h
          · by_cases h4 : command = "RETURN"
            · subst h4
              have hI : s.invalid = false := by simpa using hg
              rcases rest with _ | ⟨a, _ | ⟨b, _ | ⟨c, _ | ⟨d, t⟩⟩⟩⟩ <;>
                simp [process_parts, hI] <;>
                first
                  | exact wf_setInv h
                  | exact wf_doRETURN s a b c h
            · by_cases h5 : command = "DISCOUNT"
              · subst h5
                have hI : s.invalid = false := by simpa using hg
                rcases rest with _ | ⟨a, _ | ⟨b, _ | ⟨c, t⟩⟩⟩ <;>
                  simp [process_parts, hI] <;>
                  first
                    | exact wf_setInv h
                    | exact wf_doDISCOUNT s a b h
              · by_cases h6 : command = "DISCOUNT_END"
                · subst h6
                  have hI : s.invalid = false := by simpa using hg
                  rcases rest with _ | ⟨a, _ | ⟨b, t⟩⟩ <;>
                    simp [process_parts, hI] <;>
                    first
                      | exact wf_setInv h
                      | exact wf_doDISCOUNT_END s a h
                · by_cases h7 : command = "CHECK"
                  · subst h7
                    rcases rest with _ | ⟨a, t⟩ <;>
                      simp [process_parts] <;>
                      first
                        | exact wf_setInv h
                        | exact wf_doCHECK s h
                  · by_cases h8 : command = "PROFIT"
                    · subst h8
                      rcases rest with _ | ⟨a, t⟩
                      · by_cases hI : s.invalid <;> simp [process_parts, hI] <;> exact h
                      · simp [process_parts]
                        exact wf_setInv h
                    · have hI : s.invalid = false := by simpa [h7, h8] using hg
                      simp [process_parts, hI, h1, h2, h3, h4, h5, h6, h7, h8]
                      exact wf_setInv h

theorem wf_process_line (s : GrocerySimulator) (h : StateWF s) (line : String) :
    StateWF (process_line s line).1 := by
  unfold process_line
  match ht : trimChars line.data with
  | [] => exact h
  | c :: rest =>
    by_cases hc : c = '#'
    · simpa [hc] using h
    · simpa [hc] using wf_process_parts s h (tokens (c :: rest))

theorem wf_run_lines (ls : List String) : ∀ s, StateWF s → StateWF (run_lines s ls).1 := by
  induction ls with
  | nil => intro s h; exact h
  | cons l ls ih =>
    intro s h
    simp only [run_lines]
    exact ih _ (wf_process_line s h l)

/-! ## Failing lines have no observable effect -/

theorem obsEq_setInv (s : GrocerySimulator) : obsEq s (setInv s) :=
  ⟨fun _ => rfl, fun _ => rfl, fun _ => rfl, rfl⟩

theorem obsEq_touch_inv (s : GrocerySimulator) (item : String) :
    obsEq s (setInv { s with inventory := touchA s.inventory item [] }) := by
  refine ⟨fun k => ?_, fun _ => rfl, fun _ => rfl, rfl⟩
  exact (dGet_touchA s.inventory item k []).symm

theorem newly_doSTOCK (s : GrocerySimulator) (item qs cs : String) (hI : s.invalid = false)
    (hset : (doSTOCK s item qs cs).invalid = true) : obsEq s (doSTOCK s item qs cs) := by
  rcases hq : pFloat qs with _ | qf <;> rcases hc : pFloat cs with _ | cost <;>
    simp only [doSTOCK, hq, hc] at hset ⊢
  · exact obsEq_setInv s
  · exact obsEq_setInv s
  · exact obsEq_setInv s
  · split_ifs at hset ⊢ with h1 h2
    · exact obsEq_setInv s
    · simp [hI] at hset
    · simp [hI] at hset

theorem newly_doORDER (s : GrocerySimulator) (item qs ss : String) (hI : s.invalid = false)
    (hset : (doORDER s item qs ss).invalid = true) : obsEq s (doORDER s item qs ss) := by
  rcases hq : pFloat qs with _ | qf <;> rcases hs2 : pFloat ss with _ | sell <;>
    simp only [doORDER, hq, hs2] at hset ⊢
  · exact obsEq_setInv s
  · exact obsEq_setInv s
  · exact obsEq_setInv s
  · split_ifs at hset ⊢ with h1 h2 h3
    · exact obsEq_setInv s
    · simp [hI] at hset
    · exact obsEq_touch_inv s item
    · simp [hI] at hset

theorem newly_doEXPIRE (s : GrocerySimulator) (item qs : String) (hI : s.invalid = false)
    (hset : (doEXPIRE s item qs).invalid = true) : obsEq s (doEXPIRE s item qs) := by
  rcases hq : pFloat qs with _ | qf <;> simp only [doEXPIRE, hq] at hset ⊢
  · exact obsEq_setInv s
  · split_ifs at hset ⊢ with h1 h2 h3
    · exact obsEq_setInv s
    · simp [hI] at hset
    · exact obsEq_touch_inv s item
    · simp [hI] at hset

theorem newly_doRETURN (s : GrocerySimulator) (item qs ss : String) (hI : s.invalid = false)
    (hset : (doRETURN s item qs ss).invalid = true) : obsEq s (doRETURN s item qs ss) := by
  rcases hq : pFloat qs with _ | qf <;> rcases hs2 : pFloat ss with _ | sell
  · simp only [doRETURN, hq, hs2]; exact obsEq_setInv s
  · simp only [doRETURN, hq, hs2]; exact obsEq_setInv s
  · simp only [doRETURN, hq, hs2]; exact obsEq_setInv s
  · rcases hsi : lookupA s.sales item with _ | pm
    · simp only [doRETURN, hq, hs2, hsi] at hset ⊢
      split_ifs at hset ⊢ with h1 h2
      · exact obsEq_setInv s
      · simp [hI] at hset
      · exact obsEq_setInv s
    · rcases hpm : lookupA pm sell with _ | lots
      · simp only [doRETURN, hq, hs2, hsi, hpm] at hset ⊢
        split_ifs at hset ⊢ with h1 h2
        · exact obsEq_setInv s
        · simp [hI] at hset
        · exact obsEq_setInv s
      · simp only [doRETURN, hq, hs2, hsi, hpm] at hset ⊢
        split_ifs at hset ⊢ with h1 h2 h3
        · exact obsEq_setInv s
        · simp [hI] at hset
        · exact obsEq_setInv s
        · simp [hI] at hset

theorem newly_doDISCOUNT (s : GrocerySimulator) (item ps : String) (hI : s.invalid = false)
    (hset : (doDISCOUNT s item ps).invalid = true) : obsEq s (doDISCOUNT s item ps) := by
  rcases hp : pFloat ps with _ | pct <;> simp only [doDISCOUNT, hp] at hset ⊢
  · exact obsEq_setInv s
  · simp [hI] at hset

theorem newly_doDISCOUNT_END (s : GrocerySimulator) (item : String) (hI : s.invalid = false)
    (hset : (doDISCOUNT_END s item).invalid = true) : obsEq s (doDISCOUNT_END s item) := by
  by_cases he : dGet s.discounts item [] = ([] : List ℚ) <;>
    simp only [doDISCOUNT_END, he, if_pos, if_neg] at hset <;>
    simp [hI] at hset

theorem newly_invalid_parts (s : GrocerySimulator) (parts : List String)
    (hI : s.invalid = false) (hset : (process_parts s parts).1.invalid = true) :
    obsEq s (process_parts s parts).1 ∧ (process_parts s parts).2 = [] := by
  match parts with
  | [] => simp [process_parts, hI] at hset
  | command :: rest =>
    by_cases h1 : command = "STOCK"
    · subst h1
      rcases rest with _ | ⟨a, _ | ⟨b, _ | ⟨c, _ | ⟨d, t⟩⟩⟩⟩ <;>
        simp [process_parts, hI] at hset ⊢ <;>
        first
          | exact obsEq_setInv s
          | exact ⟨obsEq_setInv s, rfl⟩
          | exact ⟨obsEq_setInv s, trivial⟩
          | exact newly_doSTOCK s a b c hI hset
    · by_cases h2 : command = "ORDER"
      · subst h2
        rcases rest with _ | ⟨a, _ | ⟨b, _ | ⟨c, _ | ⟨d, t⟩⟩⟩⟩ <;>
          simp [process_parts, hI] at hset ⊢ <;>
          first
            | exact obsEq_setInv s
            | exact ⟨obsEq_setInv s, rfl⟩
            | exact ⟨obsEq_setInv s, trivial⟩
            | exact newly_doORDER s a b c hI hset
      · by_cases h3 : command = "EXPIRE"
        · subst h3
          rcases rest with _ | ⟨a, _ | ⟨b, _ | ⟨c, t⟩⟩⟩ <;>
            simp [process_parts, hI] at hset ⊢ <;>
            first
              | exact obsEq_setInv s
              | exact ⟨obsEq_setInv s, rfl⟩
              | exact ⟨obsEq_setInv s, trivial⟩
              | exact newly_doEXPIRE s a b hI hset
        · by_cases h4 : command = "RETURN"
          · subst h4
            rcases rest with _ | ⟨a, _ | ⟨b, _ | ⟨c, _ | ⟨d, t⟩⟩⟩⟩ <;>
              simp [process_parts, hI] at hset ⊢ <;>
              first
                | exact obsEq_setInv s
                | exact ⟨obsEq_setInv s, rfl⟩
                | exact ⟨obsEq_setInv s, trivial⟩
                | exact newly_doRETURN s a b c hI hset
          · by_cases h5 : command = "DISCOUNT"
            · subst h5
              rcases rest with _ | ⟨a, _ | ⟨b, _ | ⟨c, t⟩⟩⟩ <;>
                simp [process_parts, hI] at hset ⊢ <;>
                first
                  | exact obsEq_setInv s
                  | exact ⟨obsEq_setInv s, rfl⟩
                  | exact ⟨obsEq_setInv s, trivial⟩
                  | exact newly_doDISCOUNT s a b hI hset
            · by_cases h6 : command = "DISCOUNT_END"
              · subst h6
                rcases rest with _ | ⟨a, _ | ⟨b, t⟩⟩ <;>
                  simp [process_parts, hI] at hset ⊢ <;>
                  first
                    | exact obsEq_setInv s
                    | exact ⟨obsEq_setInv s, rfl⟩
                    | exact ⟨obsEq_setInv s, trivial⟩
                    | exact newly_doDISCOUNT_END s a hI hset
              · by_cases h7 : command = "CHECK"
                · subst h7
                  rcases rest with _ | ⟨a, t⟩
                  · simp [process_parts, hI, doCHECK] at hset
                  · simp [process_parts, hI] at hset ⊢
                    exact obsEq_setInv s
                · by_cases h8 : command = "PROFIT"
                  · subst h8
                    rcases rest with _ | ⟨a, t⟩
                    · simp [process_parts, hI] at hset
                    · simp [process_parts, hI] at hset ⊢
                      exact obsEq_setInv s
                  · simp [process_parts, hI, h1, h2, h3, h4, h5, h6, h7, h8] at hset ⊢
                    exact obsEq_setInv s

theorem malformed_sets_invalid (s : GrocerySimulator) (parts : List String)
    (hm : Malformed parts) :
    process_parts s parts = ({ s with invalid := true }, []) := by
  match parts with
  | [] => simp [Malformed, malformedB] at hm
  | command :: rest =>
    by_cases h1 : command = "STOCK"
    · subst h1
      by_cases hI : s.invalid
      · rw [show ({ s with invalid := true } : GrocerySimulator) = s from setInv_eq_self hI]
        simp [process_parts, hI]
      · rcases rest with _ | ⟨a, _ | ⟨b, _ | ⟨c, _ | ⟨d, t⟩⟩⟩⟩
        · simp [process_parts, hI, setInv]
        · simp [process_parts, hI, setInv]
        · simp [process_parts, hI, setInv]
        · simp only [Malformed, malformedB, knownCmds] at hm
          simp at hm
          rcases hm with hq | hc
          · rcases hpc : pFloat c with _ | cv <;>
              simp [process_parts, hI, doSTOCK, hq, hpc, setInv]
          · rcases hpq : pFloat b with _ | qv <;>
              simp [process_parts, hI, doSTOCK, hc, hpq, setInv]
        · simp [process_parts, hI, setInv]
    · by_cases h2 : command = "ORDER"
      · subst h2
        by_cases hI : s.invalid
        · rw [show ({ s with invalid := true } : GrocerySimulator) = s from setInv_eq_self hI]
          simp [process_parts, hI]
        · rcases rest with _ | ⟨a, _ | ⟨b, _ | ⟨c, _ | ⟨d, t⟩⟩⟩⟩
          · simp [process_parts, hI, setInv]
          · simp [process_parts, hI, setInv]
          · simp [process_parts, hI, setInv]
          · simp only [Malformed, malformedB, knownCmds] at hm
            simp at hm
            rcases hm with hq | hc
            · rcases hpc : pFloat c with _ | cv <;>
                simp [process_parts, hI, doORDER, hq, hpc, setInv]
            · rcases hpq : pFloat b with _ | qv <;>
                simp [process_parts, hI, doORDER, hc, hpq, setInv]
          · simp [process_parts, hI, setInv]
      · by_cases h3 : command = "EXPIRE"
        · subst h3
          by_cases hI : s.invalid
          · rw [show ({ s with invalid := true } : GrocerySimulator) = s from setInv_eq_self hI]
            simp [process_parts, hI]
          · rcases rest with _ | ⟨a, _ | ⟨b, _ | ⟨c, t⟩⟩⟩
            · simp [process_parts, hI, setInv]
            · simp [process_parts, hI, setInv]
            · simp only [Malformed, malformedB, knownCmds] at hm
              simp at hm
              simp [process_parts, hI, doEXPIRE, hm, setInv]
            · simp [process_parts, hI, setInv]
        · by_cases h4 : command = "RETURN"
          · subst h4
            by_cases hI : s.invalid
            · rw [show ({ s with invalid := true } : GrocerySimulator) = s
                from setInv_eq_self hI]
              simp [process_parts, hI]
            · rcases rest with _ | ⟨a, _ | ⟨b, _ | ⟨c, _ | ⟨d, t⟩⟩⟩⟩
              · simp [process_parts, hI, setInv]
              · simp [process_parts, hI, setInv]
              · simp [process_parts, hI, setInv]
              · simp only [Malformed, malformedB, knownCmds] at hm
                simp at hm
                rcases hm with hq | hc
                · rcases hpc : pFloat c with _ | cv <;>
                    simp [process_parts, hI, doRETURN, hq, hpc, setInv]
                · rcases hpq : pFloat b with _ | qv <;>
                    simp [process_parts, hI, doRETURN, hc, hpq, setInv]
              · simp [process_parts, hI, setInv]
          · by_cases h5 : command = "DISCOUNT"
            · subst h5
              by_cases hI : s.invalid
              · rw [show ({ s with invalid := true } : GrocerySimulator) = s
                  from setInv_eq_self hI]
                simp [process_parts, hI]
              · rcases rest with _ | ⟨a, _ | ⟨b, _ | ⟨c, t⟩⟩⟩
                · simp [process_parts, hI, setInv]
                · simp [process_parts, hI, setInv]
                · simp only [Malformed, malformedB, knownCmds] at hm
                  simp at hm
                  simp [process_parts, hI, doDISCOUNT, hm, setInv]
                · simp [process_parts, hI, setInv]
            · by_cases h6 : command = "DISCOUNT_END"
              · subst h6
                by_cases hI : s.invalid
                · rw [show ({ s with invalid := true } : GrocerySimulator) = s
                    from setInv_eq_self hI]
                  simp [process_parts, hI]
                · rcases rest with _ | ⟨a, _ | ⟨b, t⟩⟩
                  · simp [process_parts, hI, setInv]
                  · simp only [Malformed, malformedB, knownCmds] at hm
                    simp at hm
                  · simp [process_parts, hI, setInv]
              · by_cases h7 : command = "CHECK"
                · subst h7
                  rcases rest with _ | ⟨a, t⟩
                  · simp only [Malformed, malformedB, knownCmds] at hm
                    simp at hm
                  · by_cases hI : s.invalid
                    · rw [show ({ s with invalid := true } : GrocerySimulator) = setInv s
                        from rfl]
                      simp [process_parts, hI]
                    · simp [process_parts, hI, setInv]
                · by_cases h8 : command = "PROFIT"
                  · subst h8
                    rcases rest with _ | ⟨a, t⟩
                    · simp only [Malformed, malformedB, knownCmds] at hm
                      simp at hm
                    · by_cases hI : s.invalid
                      · rw [show ({ s with invalid := true } : GrocerySimulator) = setInv s
                          from rfl]
                        simp [process_parts, hI]
                      · simp [process_parts, hI, setInv]
                  · by_cases hI : s.invalid
                    · rw [show ({ s with invalid := true } : GrocerySimulator) = s
                        from setInv_eq_self hI]
                      simp [process_parts, hI, h7, h8]
                    · simp [process_parts, hI, h1, h2, h3, h4, h5, h6, h7, h8, setInv]

/-! ## Claim theorems -/

/-- C1: processing the official scenario from a fresh engine prints
exactly the lines Apple: 5, Peer: 20, Profit/Loss: $74.00, in that
order and nothing else. -/
theorem c1_scenario :
    (run_lines initSim demoLines).2 = ["Apple: 5", "Peer: 20", "Profit/Loss: $74.00"] := by
  decide

/-- C7 counterexample: a zero-quantity ORDER with a negative price
argument does change the validity flag (line 97 checks the price sign
before the zero-quantity no-op), refuting the claim as stated. -/
theorem c7_counterexample :
    initSim.invalid = false ∧
      (process_parts initSim ["ORDER", "A", "0", "-1"]).1.invalid = true := by
  decide

/-- C7 amended: a zero-quantity ORDER with a non-negative price, and a
zero-quantity EXPIRE or RETURN with any parsable price, leave the whole
state (hence inventory, profit and validity) and the output unchanged;
a zero-quantity ORDER at a negative price instead sets invalid. -/
theorem c7_zero_qty_noop (s : GrocerySimulator) (item qs ps : String) (qv pv : ℚ)
    (hq : pFloat qs = some qv) (h0 : qtrunc qv = 0) (hp : pFloat ps = some pv) :
    (0 ≤ pv → process_parts s ["ORDER", item, qs, ps] = (s, [])) ∧
    process_parts s ["EXPIRE", item, qs] = (s, []) ∧
    process_parts s ["RETURN", item, qs, ps] = (s, []) := by
  by_cases hI : s.invalid
  · refine ⟨fun _ => ?_, ?_, ?_⟩ <;> simp [process_parts, hI]
  · refine ⟨fun hpv => ?_, ?_, ?_⟩
    · simp [process_parts, hI, doORDER, hq, hp, h0, not_lt.2 hpv]
    · simp [process_parts, hI, doEXPIRE, hq, h0]
    · simp [process_parts, hI, doRETURN, hq, hp, h0]

/-- C7 witness for the amended statement at concrete inputs. -/
theorem c7_witness :
    (pFloat "0.0" = some 0 ∧ qtrunc 0 = 0 ∧ pFloat "-3" = some (-3)) ∧
    process_parts initSim ["EXPIRE", "A", "0.0"] = (initSim, []) :=
  ⟨⟨by decide, by decide, by decide⟩,
    (c7_zero_qty_noop initSim "A" "0.0" "-3" 0 (-3) (by decide) (by decide) (by decide)).2.1⟩

/-- C4: once the invalid flag is set it stays set for the rest of the
run: every line leaves the state exactly unchanged (so no command
resets the flag and no non-report command has any effect), the only
possible output is the PROFIT NA line, and whole-run processing from a
poisoned state keeps the state; a fresh engine starts clear. -/
theorem c4_invalid_permanent :
    initSim.invalid = false ∧
    ∀ s : GrocerySimulator, s.invalid = true →
      (∀ line, (process_line s line).1 = s ∧
        ((process_line s line).2 = [] ∨ (process_line s line).2 = ["Profit/Loss: NA"])) ∧
      ∀ ls, (run_lines s ls).1 = s := by
  refine ⟨rfl, fun s h => ⟨fun line => process_line_inv s h line, fun ls => run_lines_inv s h ls⟩⟩

/-- C5: a positive-quantity ORDER or EXPIRE beyond the available batch
total, or a RETURN beyond the non-negative remainders recorded at the
exact price, always leaves the invalid flag set; and in any poisoned
state CHECK prints nothing while PROFIT prints exactly the NA line. -/
theorem c5_violations_poison (s : GrocerySimulator) (i qs ps : String) (qv pv : ℚ)
    (hq : pFloat qs = some qv) (hp : pFloat ps = some pv) (hpos : 0 < qtrunc qv) :
    (total_available s i < qtrunc qv →
      (process_parts s ["ORDER", i, qs, ps]).1.invalid = true ∧
      (process_parts s ["EXPIRE", i, qs]).1.invalid = true) ∧
    (salesAvail s i pv < qtrunc qv →
      (process_parts s ["RETURN", i, qs, ps]).1.invalid = true) ∧
    (∀ t : GrocerySimulator, t.invalid = true →
      (process_parts t ["CHECK"]).2 = [] ∧
      (process_parts t ["PROFIT"]).2 = ["Profit/Loss: NA"]) := by
  have hnneg : ¬ qtrunc qv < 0 := not_lt.2 hpos.le
  have hne : ¬ qtrunc qv = 0 := by omega
  refine ⟨fun hlt => ⟨?_, ?_⟩, fun hlt => ?_, fun t ht => ⟨?_, ?_⟩⟩
  · by_cases hI : s.invalid
    · simp [process_parts, hI]
    · by_cases hss : pv < 0
      · simp [process_parts, hI, doORDER, hq, hp, hss, setInv]
      · simp [process_parts, hI, doORDER, hq, hp, hss, hnneg, hne, hlt, setInv]
  · by_cases hI : s.invalid
    · simp [process_parts, hI]
    · simp [process_parts, hI, doEXPIRE, hq, hnneg, hne, hlt, setInv]
  · by_cases hI : s.invalid
    · simp [process_parts, hI]
    · match hsi : lookupA s.sales i with
      | none => simp [process_parts, hI, doRETURN, hq, hp, hnneg, hne, hsi, setInv]
      | some pm =>
        match hpm : lookupA pm pv with
        | none => simp [process_parts, hI, doRETURN, hq, hp, hnneg, hne, hsi, hpm, setInv]
        | some lots =>
          have hlt2 : retAvail lots < qtrunc qv := by
            simpa [salesAvail, hsi, hpm] using hlt
          simp [process_parts, hI, doRETURN, hq, hp, hnneg, hne, hsi, hpm, hlt2, setInv]
  · simp [process_parts, doCHECK, ht]
  · simp [process_parts, ht]

/-- C5 witness at concrete violating inputs over a fresh engine. -/
theorem c5_witness :
    (pFloat "5" = some 5 ∧ pFloat "1" = some 1 ∧ 0 < qtrunc 5 ∧
      total_available initSim "A" < qtrunc 5 ∧ salesAvail initSim "A" 1 < qtrunc 5) ∧
    (process_parts initSim ["ORDER", "A", "5", "1"]).1.invalid = true ∧
    (process_parts initSim ["EXPIRE", "A", "5"]).1.invalid = true ∧
    (process_parts initSim ["RETURN", "A", "5", "1"]).1.invalid = true :=
  ⟨⟨by decide, by decide, by decide, by decide, by decide⟩,
    ((c5_violations_poison initSim "A" "5" "1" 5 1 (by decide) (by decide) (by decide)).1
      (by decide)).1,
    ((c5_violations_poison initSim "A" "5" "1" 5 1 (by decide) (by decide) (by decide)).1
      (by decide)).2,
    (c5_violations_poison initSim "A" "5" "1" 5 1 (by decide) (by decide) (by decide)).2.1
      (by decide)⟩

/-- C2: a valid RETURN of a positive quantity walks the sale lots at the
exact price in reverse append order and each lot components in original
order, as the slice trace shows; the profit drops by exactly the traced
slices worth, each slice of t units by t times its discounted unit sell
price minus its unit cost, the amount that slice added when sold; the
inventory ledger (and the discount ledger) is left completely unchanged,
and the only ledger written is the sale records of that item and price. -/
theorem c2_return_semantics (s : GrocerySimulator) (i qs ps : String) (qv pv : ℚ)
    (hI : s.invalid = false) (hq : pFloat qs = some qv) (hp : pFloat ps = some pv)
    (hpos : 0 < qtrunc qv) (pm : PriceMap) (lots : List SaleLot)
    (hsi : lookupA s.sales i = some pm) (hpm : lookupA pm pv = some lots)
    (hav : qtrunc qv ≤ retAvail lots) :
    (process_parts s ["RETURN", i, qs, ps]).1.inventory = s.inventory ∧
    (process_parts s ["RETURN", i, qs, ps]).1.discounts = s.discounts ∧
    (process_parts s ["RETURN", i, qs, ps]).1.invalid = false ∧
    (process_parts s ["RETURN", i, qs, ps]).1.profit
      = s.profit - traceSum (retLotsTrace (qtrunc qv) lots.reverse) ∧
    (process_parts s ["RETURN", i, qs, ps]).1.sales
      = upsertA s.sales i [] (fun pmv => upsertA pmv pv []
          (fun _ => (returnLotsLoop (qtrunc qv) lots.reverse).1.reverse)) := by
  rw [return_sem s i qs ps qv pv hI hq hp hpos pm lots hsi hpm hav]
  exact ⟨rfl, rfl, hI, by rw [rsub_eq, returnLotsLoop_trace], rfl⟩

/-- C2 witness: a partial return against a concrete two-unit sale. -/
theorem c2_witness :
    (pFloat "1" = some 1 ∧ pFloat "2" = some 2 ∧ 0 < qtrunc 1 ∧
      lookupA (⟨[], [], [("A", [((2 : ℚ), [⟨2, 2, [⟨2, 1, 2⟩]⟩])])], 10,
        false⟩ : GrocerySimulator).sales "A"
        = some [((2 : ℚ), [⟨2, 2, [⟨2, 1, 2⟩]⟩])] ∧
      lookupA [((2 : ℚ), [(⟨2, 2, [⟨2, 1, 2⟩]⟩ : SaleLot)])] (2 : ℚ)
        = some [⟨2, 2, [⟨2, 1, 2⟩]⟩] ∧
      qtrunc 1 ≤ retAvail [⟨2, 2, [⟨2, 1, 2⟩]⟩]) ∧
    (process_parts (⟨[], [], [("A", [((2 : ℚ), [⟨2, 2, [⟨2, 1, 2⟩]⟩])])], 10,
        false⟩ : GrocerySimulator) ["RETURN", "A", "1", "2"]).1.inventory = [] ∧
    (process_parts (⟨[], [], [("A", [((2 : ℚ), [⟨2, 2, [⟨2, 1, 2⟩]⟩])])], 10,
        false⟩ : GrocerySimulator) ["RETURN", "A", "1", "2"]).1.profit
      = 10 - traceSum (retLotsTrace (qtrunc 1) ([⟨2, 2, [⟨2, 1, 2⟩]⟩] : List SaleLot).reverse) :=
  ⟨⟨by decide, by decide, by decide, by decide, by decide, by decide⟩,
    (c2_return_semantics ⟨[], [], [("A", [((2 : ℚ), [⟨2, 2, [⟨2, 1, 2⟩]⟩])])], 10, false⟩
      "A" "1" "2" 1 2 rfl (by decide) (by decide) (by decide)
      [((2 : ℚ), [⟨2, 2, [⟨2, 1, 2⟩]⟩])] [⟨2, 2, [⟨2, 1, 2⟩]⟩]
      (by decide) (by decide) (by decide)).1,
    (c2_return_semantics ⟨[], [], [("A", [((2 : ℚ), [⟨2, 2, [⟨2, 1, 2⟩]⟩])])], 10, false⟩
      "A" "1" "2" 1 2 rfl (by decide) (by decide) (by decide)
      [((2 : ℚ), [⟨2, 2, [⟨2, 1, 2⟩]⟩])] [⟨2, 2, [⟨2, 1, 2⟩]⟩]
      (by decide) (by decide) (by decide)).2.2.2.1⟩

/-- C3: from any well-formed valid state where an ORDER of a positive
quantity at a non-negative price is accepted, running that ORDER and
then a RETURN of the same quantity at the same price restores the
profit accumulator exactly, while the inventory stays as the ORDER left
it (the returned units are not restocked). -/
theorem c3_round_trip (s : GrocerySimulator) (i qs ps : String) (qv v : ℚ)
    (hWF : StateWF s) (hI : s.invalid = false) (hq : pFloat qs = some qv)
    (hp : pFloat ps = some v) (hpos : 0 < qtrunc qv) (hv : 0 ≤ v)
    (hav : qtrunc qv ≤ total_available s i) :
    (process_parts (process_parts s ["ORDER", i, qs, ps]).1 ["RETURN", i, qs, ps]).1.profit
      = s.profit ∧
    (process_parts (process_parts s ["ORDER", i, qs, ps]).1 ["RETURN", i, qs, ps]).1.inventory
      = (process_parts s ["ORDER", i, qs, ps]).1.inventory :=
  ⟨(order_return_core s i qs ps ps qv v hWF hI hq hp hp hpos hv hav).2.1,
    (order_return_core s i qs ps ps qv v hWF hI hq hp hp hpos hv hav).2.2⟩

/-- C3 witness on a concrete stocked state. -/
theorem c3_witness :
    (StateWF ⟨[("A", [⟨10, 1⟩])], [], [], 5, false⟩ ∧ pFloat "4" = some 4 ∧
      pFloat "2" = some 2 ∧ 0 < qtrunc 4 ∧ (0 : ℚ) ≤ 2 ∧
      qtrunc 4 ≤ total_available ⟨[("A", [⟨10, 1⟩])], [], [], 5, false⟩ "A") ∧
    (process_parts (process_parts (⟨[("A", [⟨10, 1⟩])], [], [], 5,
        false⟩ : GrocerySimulator) ["ORDER", "A", "4", "2"]).1
      ["RETURN", "A", "4", "2"]).1.profit = 5 :=
  ⟨⟨by decide, by decide, by decide, by decide, by decide, by decide⟩,
    (c3_round_trip ⟨[("A", [⟨10, 1⟩])], [], [], 5, false⟩ "A" "4" "2" 4 2 (by decide) rfl
      (by decide) (by decide) (by decide) (by decide) (by decide)).1⟩

/-- C10: prices are matched by parsed numeric value, not by the textual
form of the token: when the sell token of a valid ORDER and the price
token of the following RETURN parse to the same rational, the RETURN
finds the sale records of that order, succeeds, and cancels its profit
contribution. -/
theorem c10_price_by_value (s : GrocerySimulator) (i qs t1 t2 : String) (qv v : ℚ)
    (hWF : StateWF s) (hI : s.invalid = false)
    (hq : pFloat qs = some qv) (h1 : pFloat t1 = some v) (h2 : pFloat t2 = some v)
    (hpos : 0 < qtrunc qv) (hv : 0 ≤ v) (hav : qtrunc qv ≤ total_available s i) :
    (process_parts (process_parts s ["ORDER", i, qs, t1]).1 ["RETURN", i, qs, t2]).1.invalid
      = false ∧
    (process_parts (process_parts s ["ORDER", i, qs, t1]).1 ["RETURN", i, qs, t2]).1.profit
      = s.profit :=
  ⟨(order_return_core s i qs t1 t2 qv v hWF hI hq h1 h2 hpos hv hav).1,
    (order_return_core s i qs t1 t2 qv v hWF hI hq h1 h2 hpos hv hav).2.1⟩

/-- C10 witness: the ORDER quotes the price as 2.50 and the RETURN as
2.5; both parse to the same rational and the return succeeds. -/
theorem c10_witness :
    (StateWF ⟨[("A", [⟨10, 1⟩])], [], [], 0, false⟩ ∧
      pFloat "2.50" = some (mkRat 5 2) ∧ pFloat "2.5" = some (mkRat 5 2) ∧
      0 < qtrunc 3 ∧ (0 : ℚ) ≤ mkRat 5 2 ∧
      qtrunc 3 ≤ total_available ⟨[("A", [⟨10, 1⟩])], [], [], 0, false⟩ "A") ∧
    (process_parts (process_parts (⟨[("A", [⟨10, 1⟩])], [], [], 0,
        false⟩ : GrocerySimulator) ["ORDER", "A", "3", "2.50"]).1
      ["RETURN", "A", "3", "2.5"]).1.invalid = false ∧
    (process_parts (process_parts (⟨[("A", [⟨10, 1⟩])], [], [], 0,
        false⟩ : GrocerySimulator) ["ORDER", "A", "3", "2.50"]).1
      ["RETURN", "A", "3", "2.5"]).1.profit = 0 :=
  ⟨⟨by decide, by decide, by decide, by decide, by decide, by decide⟩,
    (c10_price_by_value ⟨[("A", [⟨10, 1⟩])], [], [], 0, false⟩ "A" "3" "2.50" "2.5" 3
      (mkRat 5 2) (by decide) rfl (by decide) (by decide) (by decide) (by decide) (by decide)
      (by decide)).1,
    (c10_price_by_value ⟨[("A", [⟨10, 1⟩])], [], [], 0, false⟩ "A" "3" "2.50" "2.5" 3
      (mkRat 5 2) (by decide) rfl (by decide) (by decide) (by decide) (by decide) (by decide)
      (by decide)).2⟩

/-- C9: DISCOUNT_END on an item no ledger knows is accepted without
error and, through the defaultdict read of the discount stack, registers
the item with an empty stack, so a following CHECK in a valid run
prints the line item: 0 for it. -/
theorem c9_discount_end_registers (s : GrocerySimulator) (item : String)
    (hI : s.invalid = false)
    (hinv : lookupA s.inventory item = none)
    (hdisc : lookupA s.discounts item = none) :
    (process_parts s ["DISCOUNT_END", item]).1.invalid = false ∧
    lookupA (process_parts s ["DISCOUNT_END", item]).1.discounts item = some [] ∧
    (item ++ ": 0") ∈ (process_parts (process_parts s ["DISCOUNT_END", item]).1 ["CHECK"]).2 := by
  have hs1 : (process_parts s ["DISCOUNT_END", item]).1
      = { s with discounts := touchA s.discounts item [] } := by
    simp [process_parts, hI, doDISCOUNT_END, dGet, hdisc]
  rw [hs1]
  refine ⟨hI, ?_, ?_⟩
  · have h := lookupA_upsertA_self s.discounts item ([] : List ℚ) (fun v => v)
    simpa [touchA, dGet, hdisc] using h
  · have hout : (process_parts { s with discounts := touchA s.discounts item [] } ["CHECK"]).2
        = (doCHECK { s with discounts := touchA s.discounts item [] }).2 := by
      simp [process_parts]
    rw [hout]
    simp only [doCHECK, hI, Bool.false_eq_true, if_false]
    rw [checkFold_out]
    refine List.mem_map.2 ⟨item, ?_, ?_⟩
    · rw [mem_sortKeys]
      refine List.mem_dedup.2 (List.mem_append.2 (Or.inl (List.mem_append.2 (Or.inr ?_))))
      exact mem_keys_upsertA s.discounts item [] (fun v => v)
    · show item ++ ": " ++ toString (sumQty (dGet s.inventory item [])) = item ++ ": 0"
      rw [dGet, hinv]
      rw [String.append_assoc]
      rw [show (": " ++ toString (sumQty ((none : Option (List Batch)).getD [])) : String)
        = ": 0" from by decide]

/-- C9 witness on a fresh engine and a never-mentioned item. -/
theorem c9_witness :
    (initSim.invalid = false ∧ lookupA initSim.inventory "A" = none ∧
      lookupA initSim.discounts "A" = none) ∧
    ("A" ++ ": 0") ∈ (process_parts (process_parts initSim ["DISCOUNT_END", "A"]).1 ["CHECK"]).2 :=
  ⟨⟨rfl, rfl, rfl⟩, (c9_discount_end_registers initSim "A" rfl rfl rfl).2.2⟩

/-- C8: every state reachable from a fresh engine satisfies the
structural invariant, and every single line preserves it: batch
quantities are non-negative, sale-lot remainders are non-negative and
equal the sum of their component quantities, components non-negative. -/
theorem c8_invariants :
    (∀ ls, StateWF (run_lines initSim ls).1) ∧
    ∀ s line, StateWF s → StateWF (process_line s line).1 :=
  ⟨fun ls => wf_run_lines ls initSim (by decide),
    fun s line h => wf_process_line s h line⟩

/-- C8 witness: the invariant holds at a concrete state and is kept by
a concrete ORDER line. -/
theorem c8_witness :
    StateWF ⟨[("A", [⟨3, 1⟩])], [], [], 0, false⟩ ∧
    StateWF (process_line ⟨[("A", [⟨3, 1⟩])], [], [], 0, false⟩ "ORDER A 2 5").1 :=
  ⟨by decide, c8_invariants.2 ⟨[("A", [⟨3, 1⟩])], [], [], 0, false⟩ "ORDER A 2 5" (by decide)⟩

theorem newly_invalid_line (s : GrocerySimulator) (line : String) (hI : s.invalid = false)
    (hset : (process_line s line).1.invalid = true) :
    obsEq s (process_line s line).1 ∧ (process_line s line).2 = [] := by
  have h0 : process_line s line = (s, []) ∨
      process_line s line = process_parts s (tokens (trimChars line.data)) := by
    unfold process_line
    match trimChars line.data with
    | [] => exact Or.inl rfl
    | c :: rest =>
      by_cases hc : c = '#'
      · simp [hc]
      · simp [hc]
  rcases h0 with h0 | h0
  · rw [h0] at hset
    simp [hI] at hset
  · rw [h0] at hset ⊢
    exact newly_invalid_parts s _ hI hset

/-- C6 (modelled part): within the rational-valued model every line is
atomic: whenever processing a line turns the invalid flag on, the
observable state (every ledger read and the profit) is unchanged and
nothing is printed; and every malformed token list (unknown keyword,
wrong token count, unparsable numeric argument) flips exactly the
invalid flag and nothing else.  The model has no value for the float
special cases, where the code itself can raise (see the claim record). -/
theorem c6_atomic_or_invalid :
    (∀ (s : GrocerySimulator) (line : String), s.invalid = false →
      (process_line s line).1.invalid = true →
      obsEq s (process_line s line).1 ∧ (process_line s line).2 = []) ∧
    ∀ (s : GrocerySimulator) (parts : List String), Malformed parts →
      process_parts s parts = ({ s with invalid := true }, []) :=
  ⟨fun s line hI hset => newly_invalid_line s line hI hset,
    fun s parts hm => malformed_sets_invalid s parts hm⟩

/-- C6 witness: an oversell line and an unknown keyword on a fresh
engine. -/
theorem c6_witness :
    (initSim.invalid = false ∧ (process_line initSim "ORDER A 5 1").1.invalid = true ∧
      Malformed ["FOO"]) ∧
    (obsEq initSim (process_line initSim "ORDER A 5 1").1 ∧
      (process_line initSim "ORDER A 5 1").2 = []) ∧
    process_parts initSim ["FOO"] = ({ initSim with invalid := true }, []) :=
  ⟨⟨rfl, by decide, by decide⟩,
    c6_atomic_or_invalid.1 initSim "ORDER A 5 1" rfl (by decide),
    c6_atomic_or_invalid.2 initSim ["FOO"] (by decide)⟩

/-- C4 witness at a concrete poisoned state. -/
theorem c4_witness :
    ((⟨[], [], [], 0, true⟩ : GrocerySimulator).invalid = true) ∧
    (process_line ⟨[], [], [], 0, true⟩ "STOCK A 5 1").1 = ⟨[], [], [], 0, true⟩ ∧
    (run_lines ⟨[], [], [], 0, true⟩ ["ORDER A 1 2", "CHECK"]).1 = ⟨[], [], [], 0, true⟩ :=
  ⟨rfl,
    ((c4_invalid_permanent.2 ⟨[], [], [], 0, true⟩ rfl).1 "STOCK A 5 1").1,
    (c4_invalid_permanent.2 ⟨[], [], [], 0, true⟩ rfl).2 ["ORDER A 1 2", "CHECK"]⟩

end Grocery
